import Mathlib

/-!
Verification development for the viewport-driven tile read coordinator:
the `ReadManager` viewport/tile diffing logic and the staged `FeatureType`
feature decoder.

Modelling conventions.
* Mercator points are opaque payload data for the code under study (the
  decoder moves them around, it never computes with their coordinates,
  except for bounding-rect accumulation); they are modelled as `Int × Int`.
* Byte buffers are modelled at the token level: the feature record
  (`FeatureData`) holds the values the external coding layer
  (`ReadVarUint`, `serial::LoadPoint`, `serial::LoadInnerPath`, ...)
  would produce for each field of the record.  All control flow, index
  arithmetic, bit-mask handling and parse-state bookkeeping of the C++
  sources are embedded directly.
* External collaborators (classificator, per-scale geometry streams of the
  map container) are parameters, as in the source they are separate
  subsystems behind an interface.
-/

/-- Mercator point (`m2::PointD`); opaque payload for the decoder. -/
abbrev Point : Type := Int × Int

def pzero : Point := (0, 0)

/-- Bounding rectangle (`m2::RectD`): either the default-constructed empty
rect or a box accumulated with `Add`. -/
inductive Rect where
  | empty : Rect
  | box (minP maxP : Point) : Rect
deriving DecidableEq

/-- `m2::RectD::Add`: extend the rect to cover one more point. -/
def rectAdd : Rect → Point → Rect
  | Rect.empty, p => Rect.box p p
  | Rect.box a b, p => Rect.box (min a.1 p.1, min a.2 p.2) (max b.1 p.1, max b.2 p.2)

/-- `CalcRect` over a point container: fold `Add` over the points. -/
def calcRect (ps : List Point) (r : Rect) : Rect := ps.foldl rectAdd r

/-- Geometry type as returned by `FeatureType::GetGeomType`. -/
inductive GeomType where
  | point : GeomType
  | line : GeomType
  | area : GeomType
deriving DecidableEq

/-- The two geometry-type bits of the header byte (`HeaderGeomType`). -/
inductive HeaderGeomType where
  | point : HeaderGeomType
  | line : HeaderGeomType
  | area : HeaderGeomType
  | pointEx : HeaderGeomType
deriving DecidableEq

/-- Decoded view of the header byte `m_header`: the geometry-type bits
(`HEADER_MASK_GEOMTYPE`), the has-layer flag (`HEADER_MASK_HAS_LAYER`) and
the types-count bits consumed by `GetTypesCount`.  The source accesses the
header byte only through these masks, so the embedding keeps the decoded
fields rather than the packed byte. -/
structure FHeader where
  geomType : HeaderGeomType
  hasLayer : Bool
  typesCount : Nat
deriving DecidableEq

/-- Values produced by `FeatureParamsBase::Read` for the common-params
section of the record (name blob, house number, layer, rank, ref).  Their
internal encodings are external to the decoder; they are opaque tokens
here, except `layer` which `GetLayer` returns. -/
structure FeatureParams where
  name : Nat
  house : Nat
  layer : Int
  rank : Nat
  ref : Nat
deriving DecidableEq

/-- Token-level content of the feature record byte buffer `m_data`:
one field per syntactic element of the record, holding the value the
corresponding read primitive yields. -/
structure FeatureData where
  header : FHeader
  /-- Varint type indices following the header byte. -/
  typeIndices : List Nat
  /-- Values read by `m_params.Read`. -/
  params : FeatureParams
  /-- `serial::LoadPoint` result for Point features. -/
  center : Point
  /-- 4-bit `ptsCount` of header2 (Line). -/
  ptsCount : Nat
  /-- 4-bit `ptsMask` of header2 (Line, outer geometry). -/
  ptsMask : Nat
  /-- Bytes of the inner-line simplification mask. -/
  simpMaskBytes : List Nat
  /-- `serial::LoadInnerPath` result (`ptsCount` points). -/
  innerPoints : List Point
  /-- `serial::LoadPoint` result for the stored first point of an
      outer-geometry Line. -/
  firstPoint : Point
  /-- Varint run consumed by `ReadOffsets` for the Line offsets. -/
  offsetVarints : List Nat
  /-- 4-bit `trgCount` of header2 (Area). -/
  trgCount : Nat
  /-- 4-bit `trgMask` of header2 (Area, outer geometry). -/
  trgMask : Nat
  /-- `serial::LoadInnerTriangles` result (`trgCount + 2` points). -/
  innerTriangles : List Point
  /-- Varint run consumed by `ReadOffsets` for the Area offsets. -/
  trgOffsetVarints : List Nat

/-- The container / load-info handle (`SharedLoadInfo`): per-scale coded
scale values, the last-scale clamp bound, and the per-scale outer geometry
streams.  `geomStream ind offset basePoint` is the point run
`serial::LoadOuterPath` appends after seeking reader `ind` to `offset`
with the coding params' base point rebound to `basePoint`;
`trgStream ind offset` likewise for `serial::LoadOuterTriangles`. -/
structure SharedLoadInfo where
  scales : List Int
  lastScale : Int
  geomStream : Nat → Nat → Point → List Point
  trgStream : Nat → Nat → List Point

/-- The external classificator: `GetTypeForIndex` and the stub type used
for unresolvable indices. -/
structure Classif where
  getTypeForIndex : Nat → Nat
  stubType : Nat

/-- The parse-state bitfield `m_parsed`. -/
structure ParsedFlags where
  types : Bool
  common : Bool
  header2 : Bool
  points : Bool
  triangles : Bool
  metadata : Bool
  metaIds : Bool
deriving DecidableEq

/-- The `FeatureType` working state: record content, container handle and
all mutable parse results.  Byte-offset bookkeeping (`m_offsets.m_common`,
`m_offsets.m_header2`, `m_innerStats`) is subsumed by the token-level
record model.  Only features constructed from a byte buffer plus load-info
are modelled (the constructor `CHECK`s both to be present); the editor's
`MapObject` constructor is out of scope of the claims. -/
structure FeatureType where
  loadInfo : SharedLoadInfo
  data : FeatureData
  header : FHeader
  parsed : ParsedFlags
  types : List Nat
  params : FeatureParams
  center : Point
  limitRect : Rect
  points : List Point
  triangles : List Point
  ptsSimpMask : Nat
  offsetsPts : List Nat
  offsetsTrg : List Nat

/-- The byte-buffer constructor: store the handle and the buffer, read the
header byte; everything else is default-initialised and unparsed. -/
def mkFeatureType (li : SharedLoadInfo) (d : FeatureData) : FeatureType :=
  { loadInfo := li
    data := d
    header := d.header
    parsed := ⟨false, false, false, false, false, false, false⟩
    types := []
    params := ⟨0, 0, 0, 0, 0⟩
    center := pzero
    limitRect := Rect.empty
    points := []
    triangles := []
    ptsSimpMask := 0
    offsetsPts := []
    offsetsTrg := [] }

/-- Sentinel scale `FeatureType::BEST_GEOMETRY`. -/
def BEST_GEOMETRY : Int := -1

/-- Sentinel scale `FeatureType::WORST_GEOMETRY`. -/
def WORST_GEOMETRY : Int := -2

/-- `kInvalidOffset = numeric_limits<uint32_t>::max()`. -/
def kInvalidOffset : Nat := 4294967295

/-- `FeatureType::GetGeomType`: decode the geometry-type header bits;
anything that is not Line or Area is Point. -/
def GetGeomType (f : FeatureType) : GeomType :=
  match f.header.geomType with
  | HeaderGeomType.line => GeomType.line
  | HeaderGeomType.area => GeomType.area
  | _ => GeomType.point

/-- The clamp applied by both `GetScaleIndex` overloads: in case of
WorldCoasts, requests above the container's last scale are clamped. -/
def clampScale (li : SharedLoadInfo) (scale : Int) : Int :=
  if scale > li.lastScale then li.lastScale else scale

/-- Index of the first scale value `sc` in the list with `scale ≤ sc`
(the ascending `for` loop of both `GetScaleIndex` overloads). -/
def firstLE (scales : List Int) (scale : Int) : Option Nat :=
  match scales with
  | [] => none
  | sc :: rest => if scale ≤ sc then some 0 else (firstLE rest scale).map (· + 1)

/-- First index whose offset is populated (the `WORST_GEOMETRY` loop:
`ind = 0; while (ind < count && offsets[ind] == kInvalidOffset) ++ind`). -/
def firstValidIdx (offsets : List Nat) : Option Nat :=
  match offsets with
  | [] => none
  | o :: rest => if o ≠ kInvalidOffset then some 0 else (firstValidIdx rest).map (· + 1)

/-- Last index whose offset is populated (the `BEST_GEOMETRY` loop:
`ind = count - 1; while (ind >= 0 && offsets[ind] == kInvalidOffset) --ind`). -/
def lastValidIdx (offsets : List Nat) : Option Nat :=
  match offsets with
  | [] => none
  | o :: rest =>
    match lastValidIdx rest with
    | some j => some (j + 1)
    | none => if o ≠ kInvalidOffset then some 0 else none

/-- `GetScaleIndex(loadInfo, scale)` (the overload without offsets):
clamp, then `WORST → 0`, `BEST → count - 1`, otherwise the smallest `i`
with `scale ≤ loadInfo.GetScale(i)`, else `-1`. -/
def GetScaleIndex (li : SharedLoadInfo) (scale : Int) : Int :=
  let s := clampScale li scale
  if s = WORST_GEOMETRY then 0
  else if s = BEST_GEOMETRY then (li.scales.length : Int) - 1
  else
    match firstLE li.scales s with
    | some i => (i : Int)
    | none => -1

/-- `GetScaleIndex(loadInfo, scale, offsets)` (the overload with the
per-feature offset table): clamp, then `BEST` walks down to the highest
populated index, `WORST` walks up to the lowest populated index, and the
default case finds the smallest `i` with `scale ≤ loadInfo.GetScale(i)`
and returns `i` only if `offsets[i]` is populated, `-1` otherwise.  When a
sentinel loop runs off the table, the trailing range check yields `-1`
(after the debug assertion). -/
def GetScaleIndexOffsets (li : SharedLoadInfo) (scale : Int) (offsets : List Nat) : Int :=
  let s := clampScale li scale
  if s = BEST_GEOMETRY then
    match lastValidIdx offsets with
    | some j => (j : Int)
    | none => -1
  else if s = WORST_GEOMETRY then
    match firstValidIdx offsets with
    | some j => (j : Int)
    | none => -1
  else
    match firstLE li.scales s with
    | some i => if offsets.getD i kInvalidOffset ≠ kInvalidOffset then (i : Int) else -1
    | none => -1

/-- One step of the `ReadOffsets` loop, with explicit fuel (the loop
halves `mask` each iteration, so `fuel = mask` bounds the iteration
count): `while (mask > 0) { if (mask & 1) offsets[ind] = ReadVarUint;
++ind; mask >>= 1; }`. -/
def readOffsetsLoop : Nat → Nat → List Nat → Nat → List Nat → List Nat
  | 0, _, _, _, offsets => offsets
  | fuel + 1, mask, src, ind, offsets =>
    if mask = 0 then offsets
    else if mask % 2 = 1 then
      readOffsetsLoop fuel (mask / 2) (src.drop 1) (ind + 1) (offsets.set ind (src.headD 0))
    else
      readOffsetsLoop fuel (mask / 2) src (ind + 1) offsets

/-- `ReadOffsets`: size the table to the scales count, fill every slot
with `kInvalidOffset`, then store one varint per set mask bit. -/
def ReadOffsets (scalesCount : Nat) (mask : Nat) (src : List Nat) : List Nat :=
  readOffsetsLoop mask mask src 0 (List.replicate scalesCount kInvalidOffset)

/-- Accumulation of the inner-line simplification-mask bytes into
`m_ptsSimpMask`: `count = ((ptsCount - 2) + 4 - 1) / 4` bytes, byte `i`
shifted by `i << 3`. -/
def assembleSimpMask (d : FeatureData) : Nat :=
  let count := (d.ptsCount - 2 + 4 - 1) / 4
  (List.range count).foldl (fun acc i => acc + (d.simpMaskBytes.getD i 0 <<< (i * 8))) 0

/-- The 2-bit simplification marker of intermediate point `j` (0-based
among intermediates): `(m_ptsSimpMask >> (2 * (i - 1))) & 0x3` with
`j = i - 1`. -/
def markerAt (mask : Nat) (j : Nat) : Nat := (mask >>> (2 * j)) &&& 3

/-- The inner-geometry filtering loop of `ParseGeometry`: `js` are the
0-based intermediate indices, `acc` the intermediates emitted so far
(`points` without its leading front point), `ms` the running `minScale`.
Emits point `j + 1` when its marker is visible at `si`; otherwise, while
nothing has been emitted, lowers `minScale`. -/
def innerLoop (mask : Nat) (si : Int) (ps : List Point) :
    List Nat → List Point → Int → List Point × Int
  | [], acc, ms => (acc, ms)
  | j :: js, acc, ms =>
    let pScale : Int := (markerAt mask j : Int)
    if pScale ≤ si then innerLoop mask si ps js (acc ++ [ps.getD (j + 1) pzero]) ms
    else if acc = [] ∧ ms > pScale then innerLoop mask si ps js acc pScale
    else innerLoop mask si ps js acc ms

/-- `FeatureType::ParseTypes`: read `GetTypesCount()` varint indices,
resolve each through the classificator, substituting the stub type for
unresolvable indices. -/
def ParseTypes (c : Classif) (f : FeatureType) : FeatureType :=
  if f.parsed.types then f
  else
    { f with
      types := (f.data.typeIndices.take f.header.typesCount).map (fun idx =>
        let t := c.getTypeForIndex idx
        if t > 0 then t else c.stubType)
      parsed := { f.parsed with types := true } }

/-- `FeatureType::ParseCommon`: drive `ParseTypes`, read the common
params, and for Point features decode the centre and extend the limit
rect. -/
def ParseCommon (c : Classif) (f : FeatureType) : FeatureType :=
  if f.parsed.common then f
  else
    let g := ParseTypes c f
    let g := { g with params := g.data.params }
    let g :=
      if GetGeomType g = GeomType.point then
        { g with center := g.data.center, limitRect := rectAdd g.limitRect g.data.center }
      else g
    { g with parsed := { g.parsed with common := true } }

/-- Geometry-header work of `ParseHeader2` (everything between the guard
and setting the parsed flag): read `ptsCount`/`trgCount` and either the
inline inner geometry (simplification mask plus point run, appended to
the current containers, which the `ASSERT`s require to be empty) or the
stored first point and the per-scale offset table. -/
def parseHeader2Core (f : FeatureType) : FeatureType :=
  match f.data.header.geomType with
  | HeaderGeomType.line =>
    if f.data.ptsCount > 0 then
      { f with
        ptsSimpMask := f.ptsSimpMask + assembleSimpMask f.data
        points := f.points ++ f.data.innerPoints }
    else
      { f with
        points := f.points ++ [f.data.firstPoint]
        offsetsPts := ReadOffsets f.loadInfo.scales.length f.data.ptsMask f.data.offsetVarints }
  | HeaderGeomType.area =>
    if f.data.trgCount > 0 then
      { f with triangles := f.triangles ++ f.data.innerTriangles }
    else
      { f with
        offsetsTrg := ReadOffsets f.loadInfo.scales.length f.data.trgMask f.data.trgOffsetVarints }
  | _ => f

/-- `FeatureType::ParseHeader2`: guarded by `m_parsed.m_header2`, drives
`ParseCommon` first. -/
def ParseHeader2 (c : Classif) (f : FeatureType) : FeatureType :=
  if f.parsed.header2 then f
  else
    let g := parseHeader2Core (ParseCommon c f)
    { g with parsed := { g.parsed with header2 := true } }

/-- The index selection of the outer-geometry branch of `ParseGeometry`:
`int ind = GetScaleIndex(..., scale, offsets); if (ind == -1)
ind = GetScaleIndex(..., WORST_GEOMETRY, offsets);`. -/
def outerLineIndex (li : SharedLoadInfo) (scale : Int) (offs : List Nat) : Int :=
  let ind := GetScaleIndexOffsets li scale offs
  if ind = -1 then GetScaleIndexOffsets li WORST_GEOMETRY offs else ind

/-- Geometry work of `ParseGeometry` for a requested scale (the body of
the Line branch): outer geometry looks up the offset index, falling back
to `WORST_GEOMETRY`, and appends the decoded run with the base point
rebound to the stored first point; inner geometry filters the inline
points by the simplification mask, with the minimum-marker fallback; the
limit rect is then recalculated from the points. -/
def parseGeometryCore (scale : Int) (f : FeatureType) : FeatureType :=
  if f.data.header.geomType = HeaderGeomType.line then
    let f2 :=
      if f.points.length < 2 then
        let ind2 := outerLineIndex f.loadInfo scale f.offsetsPts
        if ind2 ≠ -1 then
          { f with points := f.points ++
              f.loadInfo.geomStream ind2.toNat (f.offsetsPts.getD ind2.toNat 0) (f.points.getD 0 pzero) }
        else f
      else
        let si := GetScaleIndex f.loadInfo scale
        let js := List.range (f.points.length - 2)
        let res := innerLoop f.ptsSimpMask si f.points js [] ((f.loadInfo.scales.length : Int) - 1)
        let mid :=
          if res.1 = [] then
            js.filterMap (fun j =>
              if (markerAt f.ptsSimpMask j : Int) = res.2 then some (f.points.getD (j + 1) pzero) else none)
          else res.1
        { f with points := f.points.getD 0 pzero :: (mid ++ [f.points.getLastD pzero]) }
    { f2 with limitRect := calcRect f2.points f2.limitRect }
  else f

/-- `FeatureType::ParseGeometry(scale)`: guarded by `m_parsed.m_points`,
drives `ParseHeader2` first and sets the flag afterwards.  The byte-size
return value (used only by `GetGeometrySize`) is omitted. -/
def ParseGeometry (c : Classif) (scale : Int) (f : FeatureType) : FeatureType :=
  if f.parsed.points then f
  else
    let g := parseGeometryCore scale (ParseHeader2 c f)
    { g with parsed := { g.parsed with points := true } }

/-- Geometry work of `ParseTriangles` (the Area branch): decode the outer
strip at the looked-up index if the inline triangles are absent, then
recalculate the limit rect. -/
def parseTrianglesCore (scale : Int) (f : FeatureType) : FeatureType :=
  if f.data.header.geomType = HeaderGeomType.area then
    let f2 :=
      if f.triangles = [] then
        let ind := GetScaleIndexOffsets f.loadInfo scale f.offsetsTrg
        if ind ≠ -1 then
          { f with triangles := f.triangles ++
              f.loadInfo.trgStream ind.toNat (f.offsetsTrg.getD ind.toNat 0) }
        else f
      else f
    { f2 with limitRect := calcRect f2.triangles f2.limitRect }
  else f

/-- `FeatureType::ParseTriangles(scale)`: guarded by
`m_parsed.m_triangles`. -/
def ParseTriangles (c : Classif) (scale : Int) (f : FeatureType) : FeatureType :=
  if f.parsed.triangles then f
  else
    let g := parseTrianglesCore scale (ParseHeader2 c f)
    { g with parsed := { g.parsed with triangles := true } }

/-- `FeatureType::ResetGeometry`: clear the geometry containers, reset
the limit rect for non-Point features, roll back the header2 / points /
triangles parse flags, clear the offset tables and the simplification
mask.  (The early return for `MapObject`-constructed features without a
load-info handle cannot fire for buffer-constructed features, which are
the ones modelled.) -/
def ResetGeometry (f : FeatureType) : FeatureType :=
  { f with
    points := []
    triangles := []
    limitRect := if GetGeomType f = GeomType.point then f.limitRect else Rect.empty
    parsed := { f.parsed with header2 := false, points := false, triangles := false }
    offsetsPts := []
    offsetsTrg := []
    ptsSimpMask := 0 }

/-- `FeatureType::GetLayer`: if the has-layer header flag is clear,
return 0 without parsing; otherwise parse through the common stage and
return the stored layer.  The mutation of `this` is modelled by returning
the updated state. -/
def GetLayer (c : Classif) (f : FeatureType) : Int × FeatureType :=
  if f.header.hasLayer = false then (0, f)
  else
    let g := ParseCommon c f
    (g.params.layer, g)

/-! ## Read manager (`ReadManager`, drape)

The viewport (`ScreenBase`) carries floating-point mercator geometry; the
manager consumes it only through three operations: the tile-scale integer
(`ScalesProcessor::GetTileScaleBase`), the rotated-rect intersection test
(`GlobalRect().IsIntersect`), and the tile enumeration `GetTileKeys`
(whose interior floor/ceil mercator arithmetic is floating point).  These
are modelled as an environment over opaque viewport identifiers; the
claims quantify over the enumeration's output, so nothing the claims
speak about is lost. -/

/-- `TileKey`: integer cell coordinates plus the zoom level. -/
structure TileKey where
  x : Int
  y : Int
  zoomLevel : Int
deriving DecidableEq

/-- `TileInfo` as seen by the manager: its key and the monotonic
cancellation flag. -/
structure TileInfo where
  key : TileKey
  cancelled : Bool
deriving DecidableEq

/-- Viewport identifier (an opaque `ScreenBase` value). -/
abbrev Screen : Type := Nat

/-- Environment of external viewport operations (see the section
comment). -/
structure DrapeEnv where
  tileScaleBase : Screen → Int
  intersects : Screen → Screen → Bool
  enumerate : Screen → List TileKey

/-- Manager state: the live tile set `m_tileInfos` (a `std::set` keyed by
`TileKey`, modelled as a duplicate-free list; its internal ordering is an
efficiency detail none of the claims depend on) and `m_currentViewport`. -/
structure RMState where
  tileInfos : List TileInfo
  currentViewport : Screen

/-- Keys of a live-set list. -/
def keysOf (l : List TileInfo) : List TileKey := l.map (fun t => t.key)

/-- `ReadManager::MustDropAllTiles`: tile scale changed, or the old and
new global rects do not intersect. -/
def MustDropAllTiles (env : DrapeEnv) (st : RMState) (screen : Screen) : Bool :=
  decide (env.tileScaleBase st.currentViewport ≠ env.tileScaleBase screen) ||
  !(env.intersects st.currentViewport screen)

/-- `std::set_difference(m_tileInfos, tiles)` with `LessCoverageCell`:
on ranges sorted and unique by `TileKey`, the output is the infos whose
key is not among `tiles`. -/
def setDiffInfoKey (l : List TileInfo) (t : List TileKey) : List TileInfo :=
  l.filter (fun x => decide (x.key ∉ t))

/-- `std::set_difference(tiles, m_tileInfos)` with `LessCoverageCell`:
the keys not held by any live info. -/
def setDiffKeyInfo (t : List TileKey) (l : List TileInfo) : List TileKey :=
  t.filter (fun k => decide (k ∉ keysOf l))

/-- `m_tileInfos.insert(tileInfo)`: no-op when an info with an equivalent
key is already present. -/
def insertInfo (l : List TileInfo) (ti : TileInfo) : List TileInfo :=
  if ti.key ∈ keysOf l then l else l ++ [ti]

/-- `m_tileInfos.erase(tileToClear)`: remove the info with the equivalent
key. -/
def eraseByKey (l : List TileInfo) (ti : TileInfo) : List TileInfo :=
  l.filter (fun x => decide (x.key ≠ ti.key))

/-- Observable outcome of one `UpdateCoverage` call: the new manager
state, the keys whose `TileInfo::Cancel` was invoked, whether
`DropAll`/`DropTiles` was signalled to the descriptor (and with which
keys), and the keys for which a reader task was pushed to the front or
back of the pool. -/
structure UpdateResult where
  state : RMState
  cancelled : List TileKey
  droppedAll : Bool
  droppedTiles : List TileKey
  frontTasks : List TileKey
  backTasks : List TileKey

/-- `ReadManager::UpdateCoverage`.  Short-circuit on an identical
viewport; otherwise enumerate the new tiles and either take the full
reset path (cancel all, clear, back-enqueue every new tile, `DropAll`)
or the incremental path (cancel and erase the outdated diff, report it
via `DropTiles`, front-enqueue every survivor, back-enqueue and insert
every incoming tile); finally commit the viewport. -/
def UpdateCoverage (env : DrapeEnv) (st : RMState) (screen : Screen) : UpdateResult :=
  if screen = st.currentViewport then ⟨st, [], false, [], [], []⟩
  else
    let tiles := env.enumerate screen
    if MustDropAllTiles env st screen then
      let live := List.foldl (fun l k => insertInfo l ⟨k, false⟩) [] tiles
      ⟨⟨live, screen⟩, keysOf st.tileInfos, true, [], [], tiles⟩
    else
      let outdated := setDiffInfoKey st.tileInfos tiles
      let incoming := setDiffKeyInfo tiles st.tileInfos
      let live1 := List.foldl eraseByKey st.tileInfos outdated
      let outKeys := keysOf outdated
      let live2 := List.foldl (fun l k => insertInfo l ⟨k, false⟩) live1 incoming
      ⟨⟨live2, screen⟩, outKeys, false, outKeys, keysOf live1, incoming⟩

/-! ## Frame lemmas for the parse stages -/

@[simp] lemma parseTypes_loadInfo (c : Classif) (f : FeatureType) :
    (ParseTypes c f).loadInfo = f.loadInfo := by unfold ParseTypes; split <;> rfl

@[simp] lemma parseTypes_data (c : Classif) (f : FeatureType) :
    (ParseTypes c f).data = f.data := by unfold ParseTypes; split <;> rfl

@[simp] lemma parseTypes_header (c : Classif) (f : FeatureType) :
    (ParseTypes c f).header = f.header := by unfold ParseTypes; split <;> rfl

@[simp] lemma parseTypes_points (c : Classif) (f : FeatureType) :
    (ParseTypes c f).points = f.points := by unfold ParseTypes; split <;> rfl

@[simp] lemma parseTypes_triangles (c : Classif) (f : FeatureType) :
    (ParseTypes c f).triangles = f.triangles := by unfold ParseTypes; split <;> rfl

@[simp] lemma parseTypes_ptsSimpMask (c : Classif) (f : FeatureType) :
    (ParseTypes c f).ptsSimpMask = f.ptsSimpMask := by unfold ParseTypes; split <;> rfl

@[simp] lemma parseTypes_offsetsPts (c : Classif) (f : FeatureType) :
    (ParseTypes c f).offsetsPts = f.offsetsPts := by unfold ParseTypes; split <;> rfl

@[simp] lemma parseTypes_offsetsTrg (c : Classif) (f : FeatureType) :
    (ParseTypes c f).offsetsTrg = f.offsetsTrg := by unfold ParseTypes; split <;> rfl

@[simp] lemma parseTypes_limitRect (c : Classif) (f : FeatureType) :
    (ParseTypes c f).limitRect = f.limitRect := by unfold ParseTypes; split <;> rfl

@[simp] lemma parseTypes_center (c : Classif) (f : FeatureType) :
    (ParseTypes c f).center = f.center := by unfold ParseTypes; split <;> rfl

@[simp] lemma parseTypes_params (c : Classif) (f : FeatureType) :
    (ParseTypes c f).params = f.params := by unfold ParseTypes; split <;> rfl

@[simp] lemma parseTypes_parsed_common (c : Classif) (f : FeatureType) :
    (ParseTypes c f).parsed.common = f.parsed.common := by unfold ParseTypes; split <;> rfl

@[simp] lemma parseTypes_parsed_header2 (c : Classif) (f : FeatureType) :
    (ParseTypes c f).parsed.header2 = f.parsed.header2 := by unfold ParseTypes; split <;> rfl

@[simp] lemma parseTypes_parsed_points (c : Classif) (f : FeatureType) :
    (ParseTypes c f).parsed.points = f.parsed.points := by unfold ParseTypes; split <;> rfl

@[simp] lemma parseTypes_parsed_triangles (c : Classif) (f : FeatureType) :
    (ParseTypes c f).parsed.triangles = f.parsed.triangles := by unfold ParseTypes; split <;> rfl

@[simp] lemma parseCommon_loadInfo (c : Classif) (f : FeatureType) :
    (ParseCommon c f).loadInfo = f.loadInfo := by
  unfold ParseCommon; split
  · rfl
  · dsimp only; split <;> simp

@[simp] lemma parseCommon_data (c : Classif) (f : FeatureType) :
    (ParseCommon c f).data = f.data := by
  unfold ParseCommon; split
  · rfl
  · dsimp only; split <;> simp

@[simp] lemma parseCommon_header (c : Classif) (f : FeatureType) :
    (ParseCommon c f).header = f.header := by
  unfold ParseCommon; split
  · rfl
  · dsimp only; split <;> simp

@[simp] lemma parseCommon_points (c : Classif) (f : FeatureType) :
    (ParseCommon c f).points = f.points := by
  unfold ParseCommon; split
  · rfl
  · dsimp only; split <;> simp

@[simp] lemma parseCommon_triangles (c : Classif) (f : FeatureType) :
    (ParseCommon c f).triangles = f.triangles := by
  unfold ParseCommon; split
  · rfl
  · dsimp only; split <;> simp

@[simp] lemma parseCommon_ptsSimpMask (c : Classif) (f : FeatureType) :
    (ParseCommon c f).ptsSimpMask = f.ptsSimpMask := by
  unfold ParseCommon; split
  · rfl
  · dsimp only; split <;> simp

@[simp] lemma parseCommon_offsetsPts (c : Classif) (f : FeatureType) :
    (ParseCommon c f).offsetsPts = f.offsetsPts := by
  unfold ParseCommon; split
  · rfl
  · dsimp only; split <;> simp

@[simp] lemma parseCommon_offsetsTrg (c : Classif) (f : FeatureType) :
    (ParseCommon c f).offsetsTrg = f.offsetsTrg := by
  unfold ParseCommon; split
  · rfl
  · dsimp only; split <;> simp

@[simp] lemma parseCommon_parsed_header2 (c : Classif) (f : FeatureType) :
    (ParseCommon c f).parsed.header2 = f.parsed.header2 := by
  unfold ParseCommon; split
  · rfl
  · dsimp only; split <;> simp

@[simp] lemma parseCommon_parsed_points (c : Classif) (f : FeatureType) :
    (ParseCommon c f).parsed.points = f.parsed.points := by
  unfold ParseCommon; split
  · rfl
  · dsimp only; split <;> simp

@[simp] lemma parseCommon_parsed_triangles (c : Classif) (f : FeatureType) :
    (ParseCommon c f).parsed.triangles = f.parsed.triangles := by
  unfold ParseCommon; split
  · rfl
  · dsimp only; split <;> simp

lemma parseCommon_params_of_unparsed (c : Classif) (f : FeatureType)
    (h : f.parsed.common = false) : (ParseCommon c f).params = f.data.params := by
  unfold ParseCommon
  rw [if_neg (by simp [h])]
  dsimp only; split <;> simp

lemma parseCommon_parsed_common (c : Classif) (f : FeatureType)
    (h : f.parsed.common = false) : (ParseCommon c f).parsed.common = true := by
  unfold ParseCommon
  rw [if_neg (by simp [h])]

@[simp] lemma parseHeader2Core_loadInfo (f : FeatureType) :
    (parseHeader2Core f).loadInfo = f.loadInfo := by
  unfold parseHeader2Core; split <;> first | rfl | (split <;> rfl)

@[simp] lemma parseHeader2Core_data (f : FeatureType) :
    (parseHeader2Core f).data = f.data := by
  unfold parseHeader2Core; split <;> first | rfl | (split <;> rfl)

@[simp] lemma parseHeader2Core_header (f : FeatureType) :
    (parseHeader2Core f).header = f.header := by
  unfold parseHeader2Core; split <;> first | rfl | (split <;> rfl)

@[simp] lemma parseHeader2Core_parsed (f : FeatureType) :
    (parseHeader2Core f).parsed = f.parsed := by
  unfold parseHeader2Core; split <;> first | rfl | (split <;> rfl)

@[simp] lemma parseHeader2Core_params (f : FeatureType) :
    (parseHeader2Core f).params = f.params := by
  unfold parseHeader2Core; split <;> first | rfl | (split <;> rfl)

@[simp] lemma parseHeader2Core_center (f : FeatureType) :
    (parseHeader2Core f).center = f.center := by
  unfold parseHeader2Core; split <;> first | rfl | (split <;> rfl)

@[simp] lemma parseHeader2Core_limitRect (f : FeatureType) :
    (parseHeader2Core f).limitRect = f.limitRect := by
  unfold parseHeader2Core; split <;> first | rfl | (split <;> rfl)

lemma parseHeader2Core_line_inner (f : FeatureType)
    (hg : f.data.header.geomType = HeaderGeomType.line) (hc : f.data.ptsCount > 0) :
    (parseHeader2Core f).points = f.points ++ f.data.innerPoints ∧
    (parseHeader2Core f).ptsSimpMask = f.ptsSimpMask + assembleSimpMask f.data := by
  unfold parseHeader2Core
  simp only [hg]
  rw [if_pos hc]
  exact ⟨rfl, rfl⟩

lemma parseHeader2Core_line_outer (f : FeatureType)
    (hg : f.data.header.geomType = HeaderGeomType.line) (hc : ¬ f.data.ptsCount > 0) :
    (parseHeader2Core f).points = f.points ++ [f.data.firstPoint] ∧
    (parseHeader2Core f).offsetsPts =
      ReadOffsets f.loadInfo.scales.length f.data.ptsMask f.data.offsetVarints := by
  unfold parseHeader2Core
  simp only [hg]
  rw [if_neg hc]
  exact ⟨rfl, rfl⟩

@[simp] lemma parseHeader2_loadInfo (c : Classif) (f : FeatureType) :
    (ParseHeader2 c f).loadInfo = f.loadInfo := by
  unfold ParseHeader2; split
  · rfl
  · simp

@[simp] lemma parseHeader2_data (c : Classif) (f : FeatureType) :
    (ParseHeader2 c f).data = f.data := by
  unfold ParseHeader2; split
  · rfl
  · simp

@[simp] lemma parseHeader2_header (c : Classif) (f : FeatureType) :
    (ParseHeader2 c f).header = f.header := by
  unfold ParseHeader2; split
  · rfl
  · simp

@[simp] lemma parseHeader2_parsed_points (c : Classif) (f : FeatureType) :
    (ParseHeader2 c f).parsed.points = f.parsed.points := by
  unfold ParseHeader2; split
  · rfl
  · simp

@[simp] lemma parseHeader2_parsed_triangles (c : Classif) (f : FeatureType) :
    (ParseHeader2 c f).parsed.triangles = f.parsed.triangles := by
  unfold ParseHeader2; split
  · rfl
  · simp

lemma parseHeader2_line_inner (c : Classif) (f : FeatureType)
    (h2 : f.parsed.header2 = false)
    (hg : f.data.header.geomType = HeaderGeomType.line) (hc : f.data.ptsCount > 0) :
    (ParseHeader2 c f).points = f.points ++ f.data.innerPoints ∧
    (ParseHeader2 c f).ptsSimpMask = f.ptsSimpMask + assembleSimpMask f.data := by
  unfold ParseHeader2
  rw [if_neg (by simp [h2])]
  have hg2 : (ParseCommon c f).data.header.geomType = HeaderGeomType.line := by simp [hg]
  have hc2 : (ParseCommon c f).data.ptsCount > 0 := by simp [hc]
  have := parseHeader2Core_line_inner (ParseCommon c f) hg2 hc2
  simpa using this

lemma parseHeader2_line_outer (c : Classif) (f : FeatureType)
    (h2 : f.parsed.header2 = false)
    (hg : f.data.header.geomType = HeaderGeomType.line) (hc : ¬ f.data.ptsCount > 0) :
    (ParseHeader2 c f).points = f.points ++ [f.data.firstPoint] ∧
    (ParseHeader2 c f).offsetsPts =
      ReadOffsets f.loadInfo.scales.length f.data.ptsMask f.data.offsetVarints := by
  unfold ParseHeader2
  rw [if_neg (by simp [h2])]
  have hg2 : (ParseCommon c f).data.header.geomType = HeaderGeomType.line := by simp [hg]
  have hc2 : ¬ (ParseCommon c f).data.ptsCount > 0 := by simp [hc]
  have := parseHeader2Core_line_outer (ParseCommon c f) hg2 hc2
  simpa using this

@[simp] lemma parseGeometryCore_parsed (scale : Int) (f : FeatureType) :
    (parseGeometryCore scale f).parsed = f.parsed := by
  unfold parseGeometryCore
  dsimp only
  repeat' split
  all_goals rfl

@[simp] lemma parseGeometryCore_data (scale : Int) (f : FeatureType) :
    (parseGeometryCore scale f).data = f.data := by
  unfold parseGeometryCore
  dsimp only
  repeat' split
  all_goals rfl

@[simp] lemma parseGeometryCore_loadInfo (scale : Int) (f : FeatureType) :
    (parseGeometryCore scale f).loadInfo = f.loadInfo := by
  unfold parseGeometryCore
  dsimp only
  repeat' split
  all_goals rfl

@[simp] lemma parseGeometryCore_header (scale : Int) (f : FeatureType) :
    (parseGeometryCore scale f).header = f.header := by
  unfold parseGeometryCore
  dsimp only
  repeat' split
  all_goals rfl

lemma parseGeometry_parsed_points (c : Classif) (scale : Int) (f : FeatureType) :
    (ParseGeometry c scale f).parsed.points = true := by
  unfold ParseGeometry; split <;> simp_all

lemma parseGeometry_points_of_unparsed (c : Classif) (scale : Int) (f : FeatureType)
    (h : f.parsed.points = false) :
    (ParseGeometry c scale f).points = (parseGeometryCore scale (ParseHeader2 c f)).points := by
  unfold ParseGeometry
  rw [if_neg (by simp [h])]

/-- Claim C7: for every feature and scale, running `ParseGeometry` a
second time at the same scale is a no-op: the parsed-flag guard makes the
second call return the state of the first call unchanged, so geometry and
parse state are those of a single call. -/
theorem claim_c7 (c : Classif) (scale : Int) (f : FeatureType) :
    ParseGeometry c scale (ParseGeometry c scale f) = ParseGeometry c scale f := by
  have h : (ParseGeometry c scale f).parsed.points = true :=
    parseGeometry_parsed_points c scale f
  conv_lhs => rw [ParseGeometry]
  simp [h]

/-- Claim C9: `ResetGeometry` clears exactly the geometry state — points,
triangles, outer-offset tables, simplification mask, the header2 / points
/ triangles parsed flags, and the limit rect of non-Point features —
while the types and common stages stay parsed and their results (types,
common params with name / house number / layer, centre point, and the
limit rect of Point features) are untouched. -/
theorem claim_c9 (f : FeatureType) :
    (ResetGeometry f).points = [] ∧
    (ResetGeometry f).triangles = [] ∧
    (ResetGeometry f).offsetsPts = [] ∧
    (ResetGeometry f).offsetsTrg = [] ∧
    (ResetGeometry f).ptsSimpMask = 0 ∧
    (ResetGeometry f).parsed.header2 = false ∧
    (ResetGeometry f).parsed.points = false ∧
    (ResetGeometry f).parsed.triangles = false ∧
    (ResetGeometry f).limitRect =
      (if GetGeomType f = GeomType.point then f.limitRect else Rect.empty) ∧
    (ResetGeometry f).parsed.types = f.parsed.types ∧
    (ResetGeometry f).parsed.common = f.parsed.common ∧
    (ResetGeometry f).parsed.metadata = f.parsed.metadata ∧
    (ResetGeometry f).parsed.metaIds = f.parsed.metaIds ∧
    (ResetGeometry f).types = f.types ∧
    (ResetGeometry f).params = f.params ∧
    (ResetGeometry f).center = f.center ∧
    (ResetGeometry f).header = f.header ∧
    (ResetGeometry f).data = f.data := by
  unfold ResetGeometry
  exact ⟨rfl, rfl, rfl, rfl, rfl, rfl, rfl, rfl, rfl, rfl, rfl, rfl, rfl, rfl, rfl, rfl,
    rfl, rfl⟩

/-- Claim C10: when the has-layer header flag is clear, `GetLayer`
returns 0 with the feature state untouched, driving no parse stage; when
the flag is set it parses through the common stage and returns the layer
value stored in the record. -/
theorem claim_c10 (c : Classif) (f : FeatureType) (h : f.parsed.common = false) :
    (f.header.hasLayer = false → GetLayer c f = (0, f)) ∧
    (f.header.hasLayer = true →
      (GetLayer c f).1 = f.data.params.layer ∧
      (GetLayer c f).2 = ParseCommon c f ∧
      (GetLayer c f).2.parsed.common = true) := by
  constructor
  · intro hl
    unfold GetLayer
    rw [if_pos hl]
  · intro hl
    unfold GetLayer
    rw [if_neg (by simp [hl])]
    dsimp only
    refine ⟨?_, rfl, parseCommon_parsed_common c f h⟩
    rw [parseCommon_params_of_unparsed c f h]

/-! ## Characterization of the scale-index lookups -/

lemma firstLE_some_spec : ∀ {scales : List Int} {x : Int} {i : Nat},
    firstLE scales x = some i →
    i < scales.length ∧ x ≤ scales.getD i 0 ∧ ∀ j, j < i → ¬ x ≤ scales.getD j 0 := by
  intro scales
  induction scales with
  | nil => intro x i h; simp [firstLE] at h
  | cons sc rest ih =>
    intro x i h
    unfold firstLE at h
    by_cases hx : x ≤ sc
    · rw [if_pos hx] at h
      obtain rfl : (0 : Nat) = i := by simpa using h
      exact ⟨by simp, by simpa using hx, by omega⟩
    · rw [if_neg hx] at h
      cases hr : firstLE rest x with
      | none => rw [hr] at h; simp at h
      | some k =>
        rw [hr] at h
        obtain rfl : k + 1 = i := by simpa using h
        obtain ⟨h1, h2, h3⟩ := ih hr
        refine ⟨by simpa using h1, by simpa using h2, ?_⟩
        intro j hj
        cases j with
        | zero => simpa using hx
        | succ j2 => simpa using h3 j2 (by omega)

lemma firstLE_of_first : ∀ {scales : List Int} {x : Int} {i : Nat},
    i < scales.length → x ≤ scales.getD i 0 → (∀ j, j < i → ¬ x ≤ scales.getD j 0) →
    firstLE scales x = some i := by
  intro scales
  induction scales with
  | nil => intro x i h; simp at h
  | cons sc rest ih =>
    intro x i hi hle hmin
    unfold firstLE
    cases i with
    | zero => rw [if_pos (by simpa using hle)]
    | succ k =>
      have hx : ¬ x ≤ sc := by simpa using hmin 0 (by omega)
      rw [if_neg hx]
      have : firstLE rest x = some k :=
        ih (by simpa using hi) (by simpa using hle)
          (fun j hj => by simpa using hmin (j + 1) (by omega))
      rw [this]
      rfl

lemma firstLE_none_of : ∀ {scales : List Int} {x : Int},
    (∀ j, j < scales.length → ¬ x ≤ scales.getD j 0) → firstLE scales x = none := by
  intro scales
  induction scales with
  | nil => intro x _; rfl
  | cons sc rest ih =>
    intro x h
    unfold firstLE
    rw [if_neg (by simpa using h 0 (by simp))]
    rw [ih (fun j hj => by simpa using h (j + 1) (by simpa using hj))]
    rfl

lemma firstValidIdx_of : ∀ {offs : List Nat} {i : Nat},
    i < offs.length → offs.getD i 0 ≠ kInvalidOffset →
    (∀ j, j < i → offs.getD j 0 = kInvalidOffset) →
    firstValidIdx offs = some i := by
  intro offs
  induction offs with
  | nil => intro i h; simp at h
  | cons o rest ih =>
    intro i hi hval hmin
    unfold firstValidIdx
    cases i with
    | zero => rw [if_pos (by simpa using hval)]
    | succ k =>
      have h0 : o = kInvalidOffset := by simpa using hmin 0 (by omega)
      rw [if_neg (by simp [h0])]
      have : firstValidIdx rest = some k :=
        ih (by simpa using hi) (by simpa using hval)
          (fun j hj => by simpa using hmin (j + 1) (by omega))
      rw [this]
      rfl

lemma firstValidIdx_none_of : ∀ {offs : List Nat},
    (∀ j, j < offs.length → offs.getD j 0 = kInvalidOffset) → firstValidIdx offs = none := by
  intro offs
  induction offs with
  | nil => intro _; rfl
  | cons o rest ih =>
    intro h
    unfold firstValidIdx
    rw [if_neg (by simpa using h 0 (by simp))]
    rw [ih (fun j hj => by simpa using h (j + 1) (by simpa using hj))]
    rfl

lemma lastValidIdx_of : ∀ {offs : List Nat} {i : Nat},
    i < offs.length → offs.getD i 0 ≠ kInvalidOffset →
    (∀ j, i < j → j < offs.length → offs.getD j 0 = kInvalidOffset) →
    lastValidIdx offs = some i := by
  intro offs
  induction offs with
  | nil => intro i h; simp at h
  | cons o rest ih =>
    intro i hi hval hmax
    unfold lastValidIdx
    cases i with
    | zero =>
      have hrest : lastValidIdx rest = none := by
        have : ∀ j, j < rest.length → rest.getD j 0 = kInvalidOffset := by
          intro j hj
          simpa using hmax (j + 1) (by omega) (by simpa using hj)
        clear ih hi hval hmax
        induction rest with
        | nil => rfl
        | cons o2 rest2 ih2 =>
          unfold lastValidIdx
          rw [ih2 (fun j hj => by simpa using this (j + 1) (by simpa using hj))]
          rw [if_neg (by simpa using this 0 (by simp))]
      rw [hrest]
      rw [if_pos (by simpa using hval)]
    | succ k =>
      have : lastValidIdx rest = some k :=
        ih (by simpa using hi) (by simpa using hval)
          (fun j hj1 hj2 => by simpa using hmax (j + 1) (by omega) (by simpa using hj2))
      rw [this]

lemma lastValidIdx_none_of : ∀ {offs : List Nat},
    (∀ j, j < offs.length → offs.getD j 0 = kInvalidOffset) → lastValidIdx offs = none := by
  intro offs
  induction offs with
  | nil => intro _; rfl
  | cons o rest ih =>
    intro h
    unfold lastValidIdx
    rw [ih (fun j hj => by simpa using h (j + 1) (by simpa using hj))]
    rw [if_neg (by simpa using h 0 (by simp))]

/-- Companion definition following the spec's words for the
scale-to-index mapping: clamp, then return the smallest `i` such that
`scale ≤ container.scale(i)` AND `offset[i]` is present (not found
otherwise); sentinels select the highest / lowest populated index.  To be
compared against `GetScaleIndexOffsets`, which is the translation of the
source. -/
def specScaleToIndex (li : SharedLoadInfo) (scale : Int) (offsets : List Nat) : Int :=
  let s := clampScale li scale
  if s = BEST_GEOMETRY then
    match lastValidIdx offsets with
    | some j => (j : Int)
    | none => -1
  else if s = WORST_GEOMETRY then
    match firstValidIdx offsets with
    | some j => (j : Int)
    | none => -1
  else
    match (List.range li.scales.length).find? (fun i =>
        decide (s ≤ li.scales.getD i 0) &&
        decide (offsets.getD i kInvalidOffset ≠ kInvalidOffset)) with
    | some i => (i : Int)
    | none => -1

/-- Claim C3, counterexample: with container scales `[10, 15]`
(last scale 15), offset table `[absent, 5]` and requested scale 5, the
smallest index `i` with `5 ≤ scale(i)` and `offset[i]` present is 1, but
the code stops at the first index with `5 ≤ scale(i)` (index 0), finds
its offset absent, and returns "not found". -/
theorem claim_c3_counterexample :
    GetScaleIndexOffsets ⟨[10, 15], 15, fun _ _ _ => [], fun _ _ => []⟩ 5
        [kInvalidOffset, 5] = -1 ∧
    specScaleToIndex ⟨[10, 15], 15, fun _ _ _ => [], fun _ _ => []⟩ 5
        [kInvalidOffset, 5] = 1 := by
  constructor <;> decide

/-- Claim C3, amended: for a non-sentinel scale the mapping first clamps,
then takes the smallest `i` with `clamped scale ≤ container.scale(i)`
considering the scales alone; it returns that `i` if `offset[i]` is
present and "not found" otherwise — even when a later index is populated
— and "not found" when no index satisfies the scale condition.  The
`BEST_GEOMETRY` sentinel returns the highest populated index, the
`WORST_GEOMETRY` sentinel the lowest populated index, and both report
"not found" on a fully unpopulated table. -/
theorem claim_c3_amended (li : SharedLoadInfo) (offsets : List Nat) (s : Int)
    (h0 : 0 ≤ s) (hl0 : 0 ≤ li.lastScale) :
    (∀ i : Nat, i < li.scales.length →
        (∀ j : Nat, j < i → ¬ clampScale li s ≤ li.scales.getD j 0) →
        clampScale li s ≤ li.scales.getD i 0 →
        GetScaleIndexOffsets li s offsets =
          (if offsets.getD i kInvalidOffset ≠ kInvalidOffset then (i : Int) else -1)) ∧
    ((∀ i : Nat, i < li.scales.length → ¬ clampScale li s ≤ li.scales.getD i 0) →
        GetScaleIndexOffsets li s offsets = -1) ∧
    (∀ i : Nat, i < offsets.length → offsets.getD i 0 ≠ kInvalidOffset →
        (∀ j : Nat, i < j → j < offsets.length → offsets.getD j 0 = kInvalidOffset) →
        GetScaleIndexOffsets li BEST_GEOMETRY offsets = (i : Int)) ∧
    ((∀ j : Nat, j < offsets.length → offsets.getD j 0 = kInvalidOffset) →
        GetScaleIndexOffsets li BEST_GEOMETRY offsets = -1 ∧
        GetScaleIndexOffsets li WORST_GEOMETRY offsets = -1) ∧
    (∀ i : Nat, i < offsets.length → offsets.getD i 0 ≠ kInvalidOffset →
        (∀ j : Nat, j < i → offsets.getD j 0 = kInvalidOffset) →
        GetScaleIndexOffsets li WORST_GEOMETRY offsets = (i : Int)) := by
  have hcs : 0 ≤ clampScale li s := by
    unfold clampScale; split <;> omega
  have hb : clampScale li s ≠ BEST_GEOMETRY := by
    unfold BEST_GEOMETRY; omega
  have hw : clampScale li s ≠ WORST_GEOMETRY := by
    unfold WORST_GEOMETRY; omega
  have hcb : clampScale li BEST_GEOMETRY = BEST_GEOMETRY := by
    unfold clampScale BEST_GEOMETRY
    rw [if_neg (by omega)]
  have hcw : clampScale li WORST_GEOMETRY = WORST_GEOMETRY := by
    unfold clampScale WORST_GEOMETRY
    rw [if_neg (by omega)]
  refine ⟨?_, ?_, ?_, ?_, ?_⟩
  · intro i hi hmin hle
    unfold GetScaleIndexOffsets
    dsimp only
    rw [if_neg hb, if_neg hw, firstLE_of_first hi hle hmin]
  · intro h
    unfold GetScaleIndexOffsets
    dsimp only
    rw [if_neg hb, if_neg hw, firstLE_none_of h]
  · intro i hi hval hmax
    unfold GetScaleIndexOffsets
    dsimp only
    rw [hcb, if_pos rfl, lastValidIdx_of hi hval hmax]
  · intro h
    constructor
    · unfold GetScaleIndexOffsets
      dsimp only
      rw [hcb, if_pos rfl, lastValidIdx_none_of h]
    · unfold GetScaleIndexOffsets
      dsimp only
      rw [hcw, if_neg (by unfold BEST_GEOMETRY WORST_GEOMETRY; omega), if_pos rfl,
        firstValidIdx_none_of h]
  · intro i hi hval hmin
    unfold GetScaleIndexOffsets
    dsimp only
    rw [hcw, if_neg (by unfold BEST_GEOMETRY WORST_GEOMETRY; omega), if_pos rfl,
      firstValidIdx_of hi hval hmin]

/-- Witness for the amended C3 at a concrete input. -/
theorem claim_c3_amended_witness :
    (0 : Int) ≤ 6 ∧
    (0 : Int) ≤ (⟨[5, 10], 10, fun _ _ _ => [], fun _ _ => []⟩ : SharedLoadInfo).lastScale ∧
    GetScaleIndexOffsets ⟨[5, 10], 10, fun _ _ _ => [], fun _ _ => []⟩ 6 [7, 9] = 1 :=
  ⟨by decide, by decide, by
    have h := (claim_c3_amended ⟨[5, 10], 10, fun _ _ _ => [], fun _ _ => []⟩ [7, 9] 6
      (by decide) (by decide)).1 1 (by decide) (by decide) (by decide)
    rw [h]
    decide⟩

@[simp] lemma mkFeatureType_loadInfo (li : SharedLoadInfo) (d : FeatureData) :
    (mkFeatureType li d).loadInfo = li := rfl

@[simp] lemma mkFeatureType_data (li : SharedLoadInfo) (d : FeatureData) :
    (mkFeatureType li d).data = d := rfl

@[simp] lemma mkFeatureType_header (li : SharedLoadInfo) (d : FeatureData) :
    (mkFeatureType li d).header = d.header := rfl

@[simp] lemma mkFeatureType_points (li : SharedLoadInfo) (d : FeatureData) :
    (mkFeatureType li d).points = [] := rfl

@[simp] lemma mkFeatureType_ptsSimpMask (li : SharedLoadInfo) (d : FeatureData) :
    (mkFeatureType li d).ptsSimpMask = 0 := rfl

/-- Evaluation of `ParseGeometry` on a freshly constructed outer-geometry
Line feature: the points are the stored first point followed, when the
index selection (requested scale, then `WORST_GEOMETRY` fallback)
succeeds, by the decoded run of the selected per-scale stream. -/
lemma parseGeometry_outer_points (c : Classif) (li : SharedLoadInfo) (d : FeatureData)
    (scale : Int) (hg : d.header.geomType = HeaderGeomType.line) (hc : d.ptsCount = 0) :
    (ParseGeometry c scale (mkFeatureType li d)).points =
      (if outerLineIndex li scale (ReadOffsets li.scales.length d.ptsMask d.offsetVarints) = -1
       then [d.firstPoint]
       else d.firstPoint ::
          li.geomStream
            (outerLineIndex li scale (ReadOffsets li.scales.length d.ptsMask d.offsetVarints)).toNat
            ((ReadOffsets li.scales.length d.ptsMask d.offsetVarints).getD
              (outerLineIndex li scale
                (ReadOffsets li.scales.length d.ptsMask d.offsetVarints)).toNat 0)
            d.firstPoint) := by
  rw [parseGeometry_points_of_unparsed c scale _ rfl]
  have hout := parseHeader2_line_outer c (mkFeatureType li d) rfl (by simpa using hg)
    (by simp [hc])
  rw [mkFeatureType_points, List.nil_append, mkFeatureType_loadInfo, mkFeatureType_data] at hout
  obtain ⟨hp, ho⟩ := hout
  unfold parseGeometryCore
  rw [if_pos (by simp [hg])]
  dsimp only
  rw [if_pos (by rw [hp]; simp)]
  rw [hp, ho]
  simp only [mkFeatureType_loadInfo, parseHeader2_loadInfo, List.getD_cons_zero,
    List.singleton_append, ne_eq, ite_not]
  split
  · exact hp
  · rfl

/-- Claim C5: for an outer-geometry Line feature whose scale-to-index
lookup at the requested scale finds no populated offset, `ParseGeometry`
retries the lookup with the `WORST_GEOMETRY` sentinel and decodes the
geometry at that index; only if the second lookup also fails does the
feature end up with no geometry beyond the stored first point. -/
theorem claim_c5 (c : Classif) (li : SharedLoadInfo) (d : FeatureData) (scale : Int)
    (hg : d.header.geomType = HeaderGeomType.line) (hc : d.ptsCount = 0)
    (h1 : GetScaleIndexOffsets li scale
        (ReadOffsets li.scales.length d.ptsMask d.offsetVarints) = -1) :
    (GetScaleIndexOffsets li WORST_GEOMETRY
        (ReadOffsets li.scales.length d.ptsMask d.offsetVarints) ≠ -1 →
      (ParseGeometry c scale (mkFeatureType li d)).points =
        d.firstPoint ::
          li.geomStream
            (GetScaleIndexOffsets li WORST_GEOMETRY
              (ReadOffsets li.scales.length d.ptsMask d.offsetVarints)).toNat
            ((ReadOffsets li.scales.length d.ptsMask d.offsetVarints).getD
              (GetScaleIndexOffsets li WORST_GEOMETRY
                (ReadOffsets li.scales.length d.ptsMask d.offsetVarints)).toNat 0)
            d.firstPoint) ∧
    (GetScaleIndexOffsets li WORST_GEOMETRY
        (ReadOffsets li.scales.length d.ptsMask d.offsetVarints) = -1 →
      (ParseGeometry c scale (mkFeatureType li d)).points = [d.firstPoint]) := by
  have hidx : outerLineIndex li scale (ReadOffsets li.scales.length d.ptsMask d.offsetVarints) =
      GetScaleIndexOffsets li WORST_GEOMETRY
        (ReadOffsets li.scales.length d.ptsMask d.offsetVarints) := by
    unfold outerLineIndex
    rw [h1]
    simp
  have he := parseGeometry_outer_points c li d scale hg hc
  rw [hidx] at he
  constructor
  · intro hne
    rw [he, if_neg hne]
  · intro hnone
    rw [he, if_pos hnone]

/-- Concrete classificator used by witnesses. -/
def clW : Classif := ⟨fun _ => 1, 1⟩

/-- Concrete container for the C5 witness: three scales, outer stream
populated at index 0 only. -/
def liC5 : SharedLoadInfo :=
  ⟨[5, 10, 15], 15, fun ind _ _ => if ind = 0 then [(1, 1)] else [], fun _ _ => []⟩

/-- Concrete outer-geometry Line record for the C5 witness: offset
present only for scale index 0. -/
def dC5 : FeatureData :=
  { header := ⟨HeaderGeomType.line, false, 1⟩
    typeIndices := []
    params := ⟨0, 0, 0, 0, 0⟩
    center := pzero
    ptsCount := 0
    ptsMask := 1
    simpMaskBytes := []
    innerPoints := []
    firstPoint := (7, 7)
    offsetVarints := [42]
    trgCount := 0
    trgMask := 0
    innerTriangles := []
    trgOffsetVarints := [] }

/-- Witness for C5: at requested scale 7 the direct lookup fails (index 1
is unpopulated), the `WORST_GEOMETRY` retry finds index 0, and the parsed
points are the stored first point followed by the stream decoded at
index 0. -/
theorem claim_c5_witness :
    GetScaleIndexOffsets liC5 7 (ReadOffsets liC5.scales.length dC5.ptsMask dC5.offsetVarints) = -1 ∧
    GetScaleIndexOffsets liC5 WORST_GEOMETRY
      (ReadOffsets liC5.scales.length dC5.ptsMask dC5.offsetVarints) ≠ -1 ∧
    (ParseGeometry clW 7 (mkFeatureType liC5 dC5)).points = [(7, 7), (1, 1)] :=
  ⟨by decide, by decide, by
    have h := (claim_c5 clW liC5 dC5 7 rfl rfl (by decide)).1 (by decide)
    rw [h]
    decide⟩

/-! ## Membership lemmas for the live tile set -/

lemma mem_keysOf {l : List TileInfo} {k : TileKey} :
    k ∈ keysOf l ↔ ∃ t, t ∈ l ∧ t.key = k := by
  unfold keysOf
  simp [List.mem_map]

lemma keysOf_insertInfo (l : List TileInfo) (ti : TileInfo) (k : TileKey) :
    k ∈ keysOf (insertInfo l ti) ↔ k = ti.key ∨ k ∈ keysOf l := by
  unfold insertInfo
  split
  · constructor
    · exact fun h => Or.inr h
    · rintro (rfl | h)
      · assumption
      · exact h
  · unfold keysOf
    simp [List.mem_map]
    constructor
    · rintro (h | rfl)
      · exact Or.inr h
      · exact Or.inl rfl
    · rintro (rfl | h)
      · exact Or.inr rfl
      · exact Or.inl h

lemma mem_insertInfo_of_mem {l : List TileInfo} {ti x : TileInfo} (h : x ∈ l) :
    x ∈ insertInfo l ti := by
  unfold insertInfo
  split
  · exact h
  · exact List.mem_append_left _ h

lemma mem_insertFold_of_mem {l : List TileInfo} {x : TileInfo} (ks : List TileKey)
    (h : x ∈ l) :
    x ∈ List.foldl (fun l2 k => insertInfo l2 ⟨k, false⟩) l ks := by
  induction ks generalizing l with
  | nil => exact h
  | cons a ks ih => exact ih (mem_insertInfo_of_mem h)

lemma keysOf_insertFold (l : List TileInfo) (ks : List TileKey) (k : TileKey) :
    k ∈ keysOf (List.foldl (fun l2 k2 => insertInfo l2 ⟨k2, false⟩) l ks) ↔
      k ∈ keysOf l ∨ k ∈ ks := by
  induction ks generalizing l with
  | nil => simp
  | cons a ks ih =>
    simp only [List.foldl_cons, ih, keysOf_insertInfo, List.mem_cons]
    tauto

lemma mem_eraseFold (l : List TileInfo) (ds : List TileInfo) (x : TileInfo) :
    x ∈ List.foldl eraseByKey l ds ↔ x ∈ l ∧ ∀ t, t ∈ ds → x.key ≠ t.key := by
  induction ds generalizing l with
  | nil => simp
  | cons a ds ih =>
    simp only [List.foldl_cons, ih]
    unfold eraseByKey
    simp only [List.mem_filter, decide_eq_true_eq, List.mem_cons]
    constructor
    · rintro ⟨⟨hx, hk⟩, hall⟩
      refine ⟨hx, ?_⟩
      rintro t (rfl | ht)
      · exact hk
      · exact hall t ht
    · rintro ⟨hx, hall⟩
      exact ⟨⟨hx, hall a (Or.inl rfl)⟩, fun t ht => hall t (Or.inr ht)⟩

lemma mem_setDiffInfoKey {l : List TileInfo} {t : List TileKey} {x : TileInfo} :
    x ∈ setDiffInfoKey l t ↔ x ∈ l ∧ x.key ∉ t := by
  unfold setDiffInfoKey
  simp [List.mem_filter]

lemma mem_setDiffKeyInfo {t : List TileKey} {l : List TileInfo} {k : TileKey} :
    k ∈ setDiffKeyInfo t l ↔ k ∈ t ∧ k ∉ keysOf l := by
  unfold setDiffKeyInfo
  simp [List.mem_filter]

/-- Keys surviving the cancel-and-erase pass over the outdated diff:
exactly the live keys that are still covered by the new tile set. -/
lemma keysOf_eraseFold_diff (l : List TileInfo) (tiles : List TileKey) (k : TileKey) :
    k ∈ keysOf (List.foldl eraseByKey l (setDiffInfoKey l tiles)) ↔
      k ∈ keysOf l ∧ k ∈ tiles := by
  constructor
  · intro h
    obtain ⟨x, hx, rfl⟩ := mem_keysOf.1 h
    obtain ⟨hxl, hall⟩ := (mem_eraseFold _ _ _).1 hx
    refine ⟨mem_keysOf.2 ⟨x, hxl, rfl⟩, ?_⟩
    by_contra hnt
    exact hall x (mem_setDiffInfoKey.2 ⟨hxl, hnt⟩) rfl
  · rintro ⟨hk, ht⟩
    obtain ⟨x, hx, rfl⟩ := mem_keysOf.1 hk
    refine mem_keysOf.2 ⟨x, (mem_eraseFold _ _ _).2 ⟨hx, ?_⟩, rfl⟩
    intro t hto heq
    obtain ⟨-, hnt⟩ := mem_setDiffInfoKey.1 hto
    exact hnt (heq ▸ ht)

/-- After an applied (non-short-circuited) `UpdateCoverage`, the live set
holds exactly the keys enumerated for the new viewport, and the viewport
is committed. -/
lemma updateCoverage_after (env : DrapeEnv) (st : RMState) (screen : Screen)
    (h : screen ≠ st.currentViewport) :
    (UpdateCoverage env st screen).state.currentViewport = screen ∧
    (∀ k, k ∈ keysOf (UpdateCoverage env st screen).state.tileInfos ↔
      k ∈ env.enumerate screen) := by
  unfold UpdateCoverage
  rw [if_neg h]
  dsimp only
  split
  · refine ⟨rfl, fun k => ?_⟩
    dsimp only
    rw [keysOf_insertFold]
    simp [keysOf]
  · refine ⟨rfl, fun k => ?_⟩
    dsimp only
    rw [keysOf_insertFold]
    constructor
    · rintro (h1 | h2)
      · exact ((keysOf_eraseFold_diff _ _ _).1 h1).2
      · exact (mem_setDiffKeyInfo.1 h2).1
    · intro hk
      by_cases hl : k ∈ keysOf st.tileInfos
      · exact Or.inl ((keysOf_eraseFold_diff _ _ _).2 ⟨hl, hk⟩)
      · exact Or.inr (mem_setDiffKeyInfo.2 ⟨hk, hl⟩)

/-- Claim C6: if every live key is covered by the current viewport's
enumeration (as it is for every state the manager reaches), then after
`UpdateCoverage(V)` every live key belongs to the tile set enumerated for
`V` — the reset path rebuilds the live set from that enumeration, the
incremental path keeps survivors and inserts incoming tiles, both inside
it. -/
theorem claim_c6 (env : DrapeEnv) (st : RMState) (screen : Screen)
    (hinv : ∀ k, k ∈ keysOf st.tileInfos → k ∈ env.enumerate st.currentViewport) :
    ∀ k, k ∈ keysOf (UpdateCoverage env st screen).state.tileInfos →
      k ∈ env.enumerate screen := by
  by_cases h : screen = st.currentViewport
  · intro k hk
    have heq : UpdateCoverage env st screen = ⟨st, [], false, [], [], []⟩ := by
      unfold UpdateCoverage
      rw [if_pos h]
    rw [heq] at hk
    rw [h]
    exact hinv k hk
  · intro k hk
    exact ((updateCoverage_after env st screen h).2 k).1 hk

/-- Witness for C6 at a concrete state and environment. -/
theorem claim_c6_witness :
    (∀ k, k ∈ keysOf ([⟨⟨0, 0, 10⟩, false⟩] : List TileInfo) →
      k ∈ (⟨fun _ => 10, fun _ _ => true,
        fun s => if s = 1 then [⟨0, 0, 10⟩] else if s = 2 then [⟨0, 0, 10⟩, ⟨1, 0, 10⟩] else []⟩ :
          DrapeEnv).enumerate 1) ∧
    (∀ k, k ∈ keysOf ((UpdateCoverage
        ⟨fun _ => 10, fun _ _ => true,
          fun s => if s = 1 then [⟨0, 0, 10⟩] else if s = 2 then [⟨0, 0, 10⟩, ⟨1, 0, 10⟩] else []⟩
        ⟨[⟨⟨0, 0, 10⟩, false⟩], 1⟩ 2).state.tileInfos) →
      k ∈ (⟨fun _ => 10, fun _ _ => true,
        fun s => if s = 1 then [⟨0, 0, 10⟩] else if s = 2 then [⟨0, 0, 10⟩, ⟨1, 0, 10⟩] else []⟩ :
          DrapeEnv).enumerate 2) :=
  ⟨by decide, claim_c6 _ ⟨[⟨⟨0, 0, 10⟩, false⟩], 1⟩ 2 (by decide)⟩

lemma insertFold_eq_append (ks : List TileKey) :
    ∀ l : List TileInfo, ks.Nodup → (∀ k, k ∈ ks → k ∉ keysOf l) →
    List.foldl (fun l2 k => insertInfo l2 ⟨k, false⟩) l ks =
      l ++ ks.map (fun k => ⟨k, false⟩) := by
  induction ks with
  | nil => intro l _ _; simp
  | cons a ks ih =>
    intro l hnd hfresh
    simp only [List.foldl_cons]
    have ha : insertInfo l ⟨a, false⟩ = l ++ [⟨a, false⟩] := by
      unfold insertInfo
      rw [if_neg (hfresh a (by simp))]
    rw [ha]
    have hfresh2 : ∀ k, k ∈ ks → k ∉ keysOf (l ++ [⟨a, false⟩]) := by
      intro k hk
      have hka : k ≠ a := by
        rintro rfl
        exact (List.nodup_cons.1 hnd).1 hk
      unfold keysOf
      simp only [List.map_append, List.mem_append]
      rintro (h1 | h2)
      · exact hfresh k (by simp [hk]) h1
      · simp at h2
        exact hka h2
    rw [ih (l ++ [({ key := a, cancelled := false } : TileInfo)]) (List.Nodup.of_cons hnd)
      hfresh2]
    simp

/-- Claim C2: the full-reset predicate holds exactly when the tile scale
of the old viewport differs from that of the new one or their rotated
global rects do not intersect; when it holds, `UpdateCoverage` cancels
every live `TileInfo`, rebuilds the live set as fresh infos for exactly
the new viewport's enumerated tiles, back-enqueues a task for each of
them, and signals `DropAll`. -/
theorem claim_c2 (env : DrapeEnv) (st : RMState) (screen : Screen)
    (hne : screen ≠ st.currentViewport) (hnd : (env.enumerate screen).Nodup) :
    (MustDropAllTiles env st screen = true ↔
      (env.tileScaleBase st.currentViewport ≠ env.tileScaleBase screen ∨
        env.intersects st.currentViewport screen = false)) ∧
    (MustDropAllTiles env st screen = true →
      (UpdateCoverage env st screen).cancelled = keysOf st.tileInfos ∧
      (UpdateCoverage env st screen).state.tileInfos =
        (env.enumerate screen).map (fun k => ⟨k, false⟩) ∧
      (UpdateCoverage env st screen).backTasks = env.enumerate screen ∧
      (UpdateCoverage env st screen).droppedAll = true) := by
  constructor
  · unfold MustDropAllTiles
    simp
  · intro hmd
    unfold UpdateCoverage
    rw [if_neg hne]
    dsimp only
    rw [if_pos hmd]
    refine ⟨rfl, ?_, rfl, rfl⟩
    dsimp only
    rw [insertFold_eq_append (env.enumerate screen) [] hnd (by simp [keysOf])]
    simp

/-- Concrete environment for the C2 witness: zooming from viewport 1 to
viewport 2 changes the tile scale, firing the reset predicate. -/
def envW2 : DrapeEnv :=
  ⟨fun s => if s = 2 then 11 else 10, fun _ _ => true,
   fun s => if s = 1 then [⟨0, 0, 10⟩] else if s = 2 then [⟨0, 0, 11⟩, ⟨1, 0, 11⟩] else []⟩

/-- Witness for C2 at a concrete zoom change. -/
theorem claim_c2_witness :
    ((2 : Screen) ≠ (⟨[⟨⟨0, 0, 10⟩, false⟩], 1⟩ : RMState).currentViewport) ∧
    (envW2.enumerate 2).Nodup ∧
    ((MustDropAllTiles envW2 ⟨[⟨⟨0, 0, 10⟩, false⟩], 1⟩ 2 = true ↔
      (envW2.tileScaleBase (⟨[⟨⟨0, 0, 10⟩, false⟩], 1⟩ : RMState).currentViewport ≠
          envW2.tileScaleBase 2 ∨
        envW2.intersects (⟨[⟨⟨0, 0, 10⟩, false⟩], 1⟩ : RMState).currentViewport 2 = false)) ∧
    (MustDropAllTiles envW2 ⟨[⟨⟨0, 0, 10⟩, false⟩], 1⟩ 2 = true →
      (UpdateCoverage envW2 ⟨[⟨⟨0, 0, 10⟩, false⟩], 1⟩ 2).cancelled =
        keysOf (⟨[⟨⟨0, 0, 10⟩, false⟩], 1⟩ : RMState).tileInfos ∧
      (UpdateCoverage envW2 ⟨[⟨⟨0, 0, 10⟩, false⟩], 1⟩ 2).state.tileInfos =
        (envW2.enumerate 2).map (fun k => ⟨k, false⟩) ∧
      (UpdateCoverage envW2 ⟨[⟨⟨0, 0, 10⟩, false⟩], 1⟩ 2).backTasks = envW2.enumerate 2 ∧
      (UpdateCoverage envW2 ⟨[⟨⟨0, 0, 10⟩, false⟩], 1⟩ 2).droppedAll = true)) :=
  ⟨by decide, by decide, claim_c2 envW2 ⟨[⟨⟨0, 0, 10⟩, false⟩], 1⟩ 2 (by decide) (by decide)⟩

lemma keysOf_setDiffInfoKey (l : List TileInfo) (t : List TileKey) (k : TileKey) :
    k ∈ keysOf (setDiffInfoKey l t) ↔ k ∈ keysOf l ∧ k ∉ t := by
  constructor
  · intro h
    obtain ⟨x, hx, rfl⟩ := mem_keysOf.1 h
    obtain ⟨hxl, hnt⟩ := mem_setDiffInfoKey.1 hx
    exact ⟨mem_keysOf.2 ⟨x, hxl, rfl⟩, hnt⟩
  · rintro ⟨hk, hnt⟩
    obtain ⟨x, hx, rfl⟩ := mem_keysOf.1 hk
    exact mem_keysOf.2 ⟨x, mem_setDiffInfoKey.2 ⟨hx, hnt⟩, rfl⟩

/-- The incremental (non-reset) path of `UpdateCoverage`, written out. -/
lemma updateCoverage_incremental (env : DrapeEnv) (st : RMState) (screen : Screen)
    (hne : screen ≠ st.currentViewport) (hm : MustDropAllTiles env st screen = false) :
    UpdateCoverage env st screen =
      ⟨⟨List.foldl (fun l k => insertInfo l ⟨k, false⟩)
          (List.foldl eraseByKey st.tileInfos
            (setDiffInfoKey st.tileInfos (env.enumerate screen)))
          (setDiffKeyInfo (env.enumerate screen) st.tileInfos), screen⟩,
        keysOf (setDiffInfoKey st.tileInfos (env.enumerate screen)), false,
        keysOf (setDiffInfoKey st.tileInfos (env.enumerate screen)),
        keysOf (List.foldl eraseByKey st.tileInfos
          (setDiffInfoKey st.tileInfos (env.enumerate screen))),
        setDiffKeyInfo (env.enumerate screen) st.tileInfos⟩ := by
  unfold UpdateCoverage
  rw [if_neg hne]
  dsimp only
  rw [if_neg (by simp [hm])]

/-- Claim C1: across two consecutive applied updates `V1` then `V2` with
the reset predicate false, the second update cancels and removes exactly
the live tiles whose key lies in `enumerate V1 \ enumerate V2`, reports
exactly those keys through `DropTiles`, constructs and back-enqueues a
fresh `TileInfo` and reader task for exactly the keys in
`enumerate V2 \ enumerate V1`, and front-enqueues a task for every
survivor (`enumerate V1 ∩ enumerate V2`) while leaving the surviving
`TileInfo`s in the live set un-cancelled. -/
theorem claim_c1 (env : DrapeEnv) (st0 : RMState) (V1 V2 : Screen) (st1 : RMState)
    (hst1 : st1 = (UpdateCoverage env st0 V1).state)
    (hne1 : V1 ≠ st0.currentViewport) (hne2 : V2 ≠ V1)
    (hnd2 : (env.enumerate V2).Nodup)
    (hm : MustDropAllTiles env st1 V2 = false) :
    (∀ k, k ∈ (UpdateCoverage env st1 V2).cancelled ↔
      (k ∈ env.enumerate V1 ∧ k ∉ env.enumerate V2)) ∧
    ((UpdateCoverage env st1 V2).droppedTiles = (UpdateCoverage env st1 V2).cancelled) ∧
    (∀ k, k ∈ (UpdateCoverage env st1 V2).backTasks ↔
      (k ∈ env.enumerate V2 ∧ k ∉ env.enumerate V1)) ∧
    (∀ k, k ∈ (UpdateCoverage env st1 V2).backTasks →
      ({ key := k, cancelled := false } : TileInfo) ∈
        (UpdateCoverage env st1 V2).state.tileInfos) ∧
    (∀ k, k ∈ (UpdateCoverage env st1 V2).frontTasks ↔
      (k ∈ env.enumerate V1 ∧ k ∈ env.enumerate V2)) ∧
    (∀ t, t ∈ st1.tileInfos → t.key ∈ env.enumerate V2 →
      (t ∈ (UpdateCoverage env st1 V2).state.tileInfos ∧
       t.key ∉ (UpdateCoverage env st1 V2).cancelled)) ∧
    (∀ k, k ∈ (UpdateCoverage env st1 V2).cancelled →
      k ∉ keysOf (UpdateCoverage env st1 V2).state.tileInfos) := by
  have hafter1 := updateCoverage_after env st0 V1 hne1
  rw [← hst1] at hafter1
  obtain ⟨hcv1, hkeys1⟩ := hafter1
  have hne2' : V2 ≠ st1.currentViewport := by rw [hcv1]; exact hne2
  have hu := updateCoverage_incremental env st1 V2 hne2' hm
  have hafter2 := updateCoverage_after env st1 V2 hne2'
  obtain ⟨-, hkeys2⟩ := hafter2
  have hcanc : ∀ k, k ∈ (UpdateCoverage env st1 V2).cancelled ↔
      (k ∈ env.enumerate V1 ∧ k ∉ env.enumerate V2) := by
    intro k
    rw [hu]
    dsimp only
    rw [keysOf_setDiffInfoKey, hkeys1 k]
  have hback : ∀ k, k ∈ (UpdateCoverage env st1 V2).backTasks ↔
      (k ∈ env.enumerate V2 ∧ k ∉ env.enumerate V1) := by
    intro k
    rw [hu]
    dsimp only
    rw [mem_setDiffKeyInfo]
    constructor
    · rintro ⟨h1, h2⟩
      exact ⟨h1, fun hc => h2 ((hkeys1 k).2 hc)⟩
    · rintro ⟨h1, h2⟩
      exact ⟨h1, fun hc => h2 ((hkeys1 k).1 hc)⟩
  refine ⟨hcanc, ?_, hback, ?_, ?_, ?_, ?_⟩
  · rw [hu]
  · -- Freshly inserted infos for incoming keys end up in the live set.
    intro k hk
    have hfilter : (setDiffKeyInfo (env.enumerate V2) st1.tileInfos).Nodup :=
      List.Nodup.filter _ hnd2
    have hfresh : ∀ k2, k2 ∈ setDiffKeyInfo (env.enumerate V2) st1.tileInfos →
        k2 ∉ keysOf (List.foldl eraseByKey st1.tileInfos
          (setDiffInfoKey st1.tileInfos (env.enumerate V2))) := by
      intro k2 hk2 hmem
      exact (mem_setDiffKeyInfo.1 hk2).2 ((keysOf_eraseFold_diff _ _ _).1 hmem).1
    have heq := insertFold_eq_append (setDiffKeyInfo (env.enumerate V2) st1.tileInfos)
      (List.foldl eraseByKey st1.tileInfos
        (setDiffInfoKey st1.tileInfos (env.enumerate V2))) hfilter hfresh
    rw [hu] at hk ⊢
    dsimp only at hk ⊢
    rw [heq]
    refine List.mem_append_right _ ?_
    exact List.mem_map.2 ⟨k, hk, rfl⟩
  · intro k
    rw [hu]
    dsimp only
    rw [keysOf_eraseFold_diff, hkeys1 k]
  · intro t ht htk
    constructor
    · rw [hu]
      dsimp only
      refine mem_insertFold_of_mem _ ?_
      refine (mem_eraseFold _ _ _).2 ⟨ht, ?_⟩
      intro o ho heq
      exact (mem_setDiffInfoKey.1 ho).2 (heq ▸ htk)
    · intro hc
      exact ((hcanc t.key).1 hc).2 htk
  · intro k hk
    intro hmem
    exact ((hcanc k).1 hk).2 ((hkeys2 k).1 hmem)

/-- Concrete environment for the C1 witness: a pan at constant zoom. -/
def envW1 : DrapeEnv :=
  ⟨fun _ => 10, fun _ _ => true,
   fun s => if s = 1 then [⟨0, 0, 10⟩, ⟨1, 0, 10⟩]
     else if s = 2 then [⟨1, 0, 10⟩, ⟨2, 0, 10⟩] else []⟩

/-- Witness for C1: pan from viewport 1 to viewport 2. -/
theorem claim_c1_witness :
    ((1 : Screen) ≠ (⟨[], 0⟩ : RMState).currentViewport) ∧
    ((2 : Screen) ≠ 1) ∧
    (envW1.enumerate 2).Nodup ∧
    MustDropAllTiles envW1 ((UpdateCoverage envW1 ⟨[], 0⟩ 1).state) 2 = false ∧
    (∀ k, k ∈ (UpdateCoverage envW1 ((UpdateCoverage envW1 ⟨[], 0⟩ 1).state) 2).cancelled ↔
      (k ∈ envW1.enumerate 1 ∧ k ∉ envW1.enumerate 2)) :=
  ⟨by decide, by decide, by decide, by decide,
    (claim_c1 envW1 ⟨[], 0⟩ 1 2 _ rfl (by decide) (by decide) (by decide) (by decide)).1⟩

/-! ## Inner-line filtering: loop characterization -/

lemma filterMap_ite {α β : Type} (p : α → Prop) [DecidablePred p] (g : α → β) :
    ∀ l : List α, l.filterMap (fun a => if p a then some (g a) else none) =
      (l.filter (fun a => decide (p a))).map g := by
  intro l
  induction l with
  | nil => rfl
  | cons a l ih =>
    by_cases h : p a
    · simp [List.filterMap_cons, h, ih]
    · simp [List.filterMap_cons, h, ih]

lemma filter_length_mono (p q : Nat → Bool) : ∀ l : List Nat,
    (∀ a ∈ l, p a = true → q a = true) →
    (l.filter p).length ≤ (l.filter q).length := by
  intro l
  induction l with
  | nil => intro _; simp
  | cons a l ih =>
    intro h
    have ht : ∀ b ∈ l, p b = true → q b = true := fun b hb => h b (by simp [hb])
    by_cases hp : p a = true
    · rw [List.filter_cons_of_pos hp, List.filter_cons_of_pos (h a (by simp) hp)]
      simpa using ih ht
    · rw [List.filter_cons_of_neg (by simpa using hp)]
      by_cases hq : q a = true
      · rw [List.filter_cons_of_pos hq]
        exact Nat.le_succ_of_le (ih ht)
      · rw [List.filter_cons_of_neg (by simpa using hq)]
        exact ih ht

lemma foldlMin_le_init (g : Nat → Int) : ∀ (js : List Nat) (ms : Int),
    js.foldl (fun m j2 => min m (g j2)) ms ≤ ms := by
  intro js
  induction js with
  | nil => intro ms; simp
  | cons a js ih =>
    intro ms
    simp only [List.foldl_cons]
    exact le_trans (ih (min ms (g a))) (min_le_left _ _)

lemma foldlMin_le_mem (g : Nat → Int) : ∀ (js : List Nat) (ms : Int) (j : Nat), j ∈ js →
    js.foldl (fun m j2 => min m (g j2)) ms ≤ g j := by
  intro js
  induction js with
  | nil => intro ms j h; simp at h
  | cons a js ih =>
    intro ms j hj
    simp only [List.foldl_cons]
    rcases List.mem_cons.1 hj with rfl | h
    · exact le_trans (foldlMin_le_init g js (min ms (g j))) (min_le_right _ _)
    · exact ih (min ms (g a)) j h

lemma foldlMin_cases (g : Nat → Int) : ∀ (js : List Nat) (ms : Int),
    js.foldl (fun m j2 => min m (g j2)) ms = ms ∨
      ∃ j, j ∈ js ∧ js.foldl (fun m j2 => min m (g j2)) ms = g j := by
  intro js
  induction js with
  | nil => intro ms; exact Or.inl rfl
  | cons a js ih =>
    intro ms
    simp only [List.foldl_cons]
    rcases ih (min ms (g a)) with h | ⟨j, hj, hfe⟩
    · rcases le_total ms (g a) with hle | hle
      · exact Or.inl (h.trans (min_eq_left hle))
      · exact Or.inr ⟨a, by simp, h.trans (min_eq_right hle)⟩
    · exact Or.inr ⟨j, by simp [hj], hfe⟩

/-- The loop's `minScale` equals `g j` exactly for the minimal markers,
provided the initial value bounds every marker from above. -/
lemma foldlMin_eq_iff (g : Nat → Int) (js : List Nat) (init : Int)
    (hinit : ∀ j, j ∈ js → g j ≤ init) (j : Nat) (hj : j ∈ js) :
    g j = js.foldl (fun m j2 => min m (g j2)) init ↔ (∀ j2, j2 ∈ js → g j ≤ g j2) := by
  constructor
  · intro h
    intro j2 hj2
    rw [h]
    exact foldlMin_le_mem g js init j2 hj2
  · intro hmin
    rcases foldlMin_cases g js init with h | ⟨j3, hj3, h⟩
    · have h1 : js.foldl (fun m j2 => min m (g j2)) init ≤ g j :=
        foldlMin_le_mem g js init j hj
      have h2 : g j ≤ init := hinit j hj
      omega
    · have h1 : js.foldl (fun m j2 => min m (g j2)) init ≤ g j :=
        foldlMin_le_mem g js init j hj
      have h2 : g j ≤ g j3 := hmin j3 hj3
      omega

lemma innerLoop_fst (mask : Nat) (si : Int) (ps : List Point) :
    ∀ (js : List Nat) (acc : List Point) (ms : Int),
    (innerLoop mask si ps js acc ms).1 =
      acc ++ js.filterMap (fun j =>
        if (markerAt mask j : Int) ≤ si then some (ps.getD (j + 1) pzero) else none) := by
  intro js
  induction js with
  | nil => intro acc ms; simp [innerLoop]
  | cons j js ih =>
    intro acc ms
    unfold innerLoop
    dsimp only
    by_cases h1 : (markerAt mask j : Int) ≤ si
    · rw [if_pos h1, ih]
      simp [List.filterMap_cons, h1]
    · rw [if_neg h1]
      split
      · rw [ih]
        simp [List.filterMap_cons, h1]
      · rw [ih]
        simp [List.filterMap_cons, h1]

lemma innerLoop_snd (mask : Nat) (si : Int) (ps : List Point) :
    ∀ (js : List Nat) (ms : Int),
    (∀ j, j ∈ js → ¬ (markerAt mask j : Int) ≤ si) →
    (innerLoop mask si ps js [] ms).2 =
      js.foldl (fun m j => min m (markerAt mask j : Int)) ms := by
  intro js
  induction js with
  | nil => intro ms _; simp [innerLoop]
  | cons j js ih =>
    intro ms hall
    unfold innerLoop
    dsimp only
    rw [if_neg (hall j (by simp))]
    simp only [List.foldl_cons]
    by_cases h2 : ms > (markerAt mask j : Int)
    · rw [if_pos ⟨by trivial, h2⟩]
      rw [ih _ (fun j2 hj2 => hall j2 (by simp [hj2]))]
      congr 1
      omega
    · rw [if_neg (by tauto)]
      rw [ih _ (fun j2 hj2 => hall j2 (by simp [hj2]))]
      congr 1
      omega

/-- The inner-geometry result of `ParseGeometry` on a geometry-fresh Line
feature, in closed form: first point, then the intermediates whose marker
is visible at the scale index — or, when none is, the intermediates at
the loop's minimum marker — then the last point. -/
def innerResult (li : SharedLoadInfo) (d : FeatureData) (scale : Int) : List Point :=
  let M := assembleSimpMask d
  let si := GetScaleIndex li scale
  let js := List.range (d.innerPoints.length - 2)
  let kept := js.filter (fun j => decide ((markerAt M j : Int) ≤ si))
  let ms := js.foldl (fun m j => min m (markerAt M j : Int)) ((li.scales.length : Int) - 1)
  let chosen := if kept = [] then js.filter (fun j => decide ((markerAt M j : Int) = ms)) else kept
  d.innerPoints.getD 0 pzero ::
    (chosen.map (fun j => d.innerPoints.getD (j + 1) pzero) ++ [d.innerPoints.getLastD pzero])

lemma parseGeometry_inner_points (c : Classif) (scale : Int) (f : FeatureType)
    (hpp : f.parsed.points = false) (hh2 : f.parsed.header2 = false)
    (hpts : f.points = []) (hmask : f.ptsSimpMask = 0)
    (hg : f.data.header.geomType = HeaderGeomType.line)
    (hpc : 0 < f.data.ptsCount) (hcnt : 2 ≤ f.data.innerPoints.length) :
    (ParseGeometry c scale f).points = innerResult f.loadInfo f.data scale := by
  rw [parseGeometry_points_of_unparsed c scale f hpp]
  obtain ⟨hp, hm2⟩ := parseHeader2_line_inner c f hh2 hg hpc
  rw [hpts, List.nil_append] at hp
  rw [hmask, Nat.zero_add] at hm2
  unfold parseGeometryCore
  rw [if_pos (by simp [hg])]
  dsimp only
  rw [if_neg (by rw [hp]; omega)]
  dsimp only
  rw [hp, hm2, parseHeader2_loadInfo]
  rw [innerLoop_fst]
  rw [List.nil_append]
  rw [filterMap_ite (fun j => (markerAt (assembleSimpMask f.data) j : Int) ≤
    GetScaleIndex f.loadInfo scale) (fun j => f.data.innerPoints.getD (j + 1) pzero)]
  unfold innerResult
  dsimp only
  by_cases hk : (List.range (f.data.innerPoints.length - 2)).filter
      (fun j => decide ((markerAt (assembleSimpMask f.data) j : Int) ≤
        GetScaleIndex f.loadInfo scale)) = []
  · rw [hk]
    simp only [List.map_nil, if_pos rfl]
    have hall : ∀ j, j ∈ List.range (f.data.innerPoints.length - 2) →
        ¬ (markerAt (assembleSimpMask f.data) j : Int) ≤ GetScaleIndex f.loadInfo scale := by
      intro j hj hle
      have : j ∈ (List.range (f.data.innerPoints.length - 2)).filter
          (fun j => decide ((markerAt (assembleSimpMask f.data) j : Int) ≤
            GetScaleIndex f.loadInfo scale)) := by
        rw [List.mem_filter]
        exact ⟨hj, by simpa using hle⟩
      rw [hk] at this
      simp at this
    rw [innerLoop_snd _ _ _ _ _ hall]
    rw [filterMap_ite (fun j => (markerAt (assembleSimpMask f.data) j : Int) =
      (List.range (f.data.innerPoints.length - 2)).foldl
        (fun m j => min m (markerAt (assembleSimpMask f.data) j : Int))
        ((f.loadInfo.scales.length : Int) - 1))
      (fun j => f.data.innerPoints.getD (j + 1) pzero)]
    simp
  · rw [if_neg (by simpa [List.map_eq_nil_iff] using hk)]
    rw [if_neg hk]

/-- Claim C4: on a Line feature with inner geometry, `ParseGeometry`
emits the first and last stored point always, and intermediate `j`
exactly when its 2-bit simplification marker is at most the scale index
of the requested scale; when that filtering keeps no intermediate, every
intermediate whose marker equals the smallest marker among the
intermediates is re-included.  (The well-formedness hypothesis that each
marker is a valid scale index makes the loop's `minScale` seed, the last
scale index, an upper bound of all markers.) -/
theorem claim_c4 (c : Classif) (li : SharedLoadInfo) (d : FeatureData) (scale : Int)
    (hg : d.header.geomType = HeaderGeomType.line) (hpc : 0 < d.ptsCount)
    (hcnt : 2 ≤ d.innerPoints.length)
    (hmark : ∀ j, j < d.innerPoints.length - 2 →
      markerAt (assembleSimpMask d) j < li.scales.length) :
    (ParseGeometry c scale (mkFeatureType li d)).points =
      d.innerPoints.getD 0 pzero ::
      ((if (List.range (d.innerPoints.length - 2)).filter
            (fun j => decide ((markerAt (assembleSimpMask d) j : Int) ≤
              GetScaleIndex li scale)) = []
        then (List.range (d.innerPoints.length - 2)).filter
            (fun j => decide (∀ j2, j2 < d.innerPoints.length - 2 →
              markerAt (assembleSimpMask d) j ≤ markerAt (assembleSimpMask d) j2))
        else (List.range (d.innerPoints.length - 2)).filter
            (fun j => decide ((markerAt (assembleSimpMask d) j : Int) ≤
              GetScaleIndex li scale))).map (fun j => d.innerPoints.getD (j + 1) pzero)
       ++ [d.innerPoints.getLastD pzero]) := by
  rw [parseGeometry_inner_points c scale (mkFeatureType li d) rfl rfl rfl rfl hg hpc hcnt]
  rw [show (mkFeatureType li d).loadInfo = li from rfl,
    show (mkFeatureType li d).data = d from rfl]
  unfold innerResult
  dsimp only
  by_cases hk : (List.range (d.innerPoints.length - 2)).filter
      (fun j => decide ((markerAt (assembleSimpMask d) j : Int) ≤ GetScaleIndex li scale)) = []
  · rw [if_pos hk, if_pos hk]
    congr 1
    congr 1
    congr 1
    apply List.filter_congr
    intro j hj
    rw [decide_eq_decide]
    have hinit : ∀ j2, j2 ∈ List.range (d.innerPoints.length - 2) →
        (markerAt (assembleSimpMask d) j2 : Int) ≤ (li.scales.length : Int) - 1 := by
      intro j2 hj2
      have := hmark j2 (List.mem_range.1 hj2)
      omega
    rw [foldlMin_eq_iff (fun j2 => (markerAt (assembleSimpMask d) j2 : Int))
      (List.range (d.innerPoints.length - 2)) ((li.scales.length : Int) - 1) hinit j hj]
    constructor
    · intro h j2 hj2
      exact_mod_cast h j2 (List.mem_range.2 hj2)
    · intro h j2 hj2
      exact_mod_cast h j2 (List.mem_range.1 hj2)
  · rw [if_neg hk, if_neg hk]

/-- Concrete container for the C4 / C8 witnesses. -/
def liC4 : SharedLoadInfo := ⟨[2, 4, 6, 8], 8, fun _ _ _ => [], fun _ _ => []⟩

/-- Concrete inner-geometry Line record for the C4 / C8 witnesses: four
points, intermediate markers 1 and 3 (mask byte 13). -/
def dC4 : FeatureData :=
  { header := ⟨HeaderGeomType.line, false, 1⟩
    typeIndices := []
    params := ⟨0, 0, 0, 0, 0⟩
    center := pzero
    ptsCount := 4
    ptsMask := 0
    simpMaskBytes := [13]
    innerPoints := [(0, 0), (1, 1), (2, 2), (3, 3)]
    firstPoint := pzero
    offsetVarints := []
    trgCount := 0
    trgMask := 0
    innerTriangles := []
    trgOffsetVarints := [] }

/-- Witness for C4: at scale 3 (scale index 1) only the marker-1
intermediate survives. -/
theorem claim_c4_witness :
    0 < dC4.ptsCount ∧ 2 ≤ dC4.innerPoints.length ∧
    (∀ j, j < dC4.innerPoints.length - 2 →
      markerAt (assembleSimpMask dC4) j < liC4.scales.length) ∧
    (ParseGeometry clW 3 (mkFeatureType liC4 dC4)).points = [(0, 0), (1, 1), (3, 3)] :=
  ⟨by decide, by decide, by decide, by
    have h := claim_c4 clW liC4 dC4 3 rfl (by decide) (by decide) (by decide)
    rw [h]
    decide⟩

@[simp] lemma parseGeometry_data (c : Classif) (scale : Int) (f : FeatureType) :
    (ParseGeometry c scale f).data = f.data := by
  unfold ParseGeometry; split
  · rfl
  · simp

@[simp] lemma parseGeometry_loadInfo (c : Classif) (scale : Int) (f : FeatureType) :
    (ParseGeometry c scale f).loadInfo = f.loadInfo := by
  unfold ParseGeometry; split
  · rfl
  · simp

@[simp] lemma resetGeometry_data (f : FeatureType) : (ResetGeometry f).data = f.data := rfl

@[simp] lemma resetGeometry_loadInfo (f : FeatureType) :
    (ResetGeometry f).loadInfo = f.loadInfo := rfl

@[simp] lemma resetGeometry_points (f : FeatureType) : (ResetGeometry f).points = [] := rfl

@[simp] lemma resetGeometry_ptsSimpMask (f : FeatureType) :
    (ResetGeometry f).ptsSimpMask = 0 := rfl

@[simp] lemma resetGeometry_parsed_points (f : FeatureType) :
    (ResetGeometry f).parsed.points = false := rfl

@[simp] lemma resetGeometry_parsed_header2 (f : FeatureType) :
    (ResetGeometry f).parsed.header2 = false := rfl

lemma clampScale_nonneg (li : SharedLoadInfo) (s : Int) (h0 : 0 ≤ s)
    (hl0 : 0 ≤ li.lastScale) : 0 ≤ clampScale li s := by
  unfold clampScale; split <;> omega

lemma clampScale_mono (li : SharedLoadInfo) {s1 s2 : Int} (h : s1 ≤ s2) :
    clampScale li s1 ≤ clampScale li s2 := by
  unfold clampScale; split <;> split <;> omega

lemma firstLE_isSome (scales : List Int) (x : Int) :
    scales ≠ [] → x ≤ scales.getLastD 0 → ∃ i, firstLE scales x = some i := by
  induction scales with
  | nil => intro hne _; exact absurd rfl hne
  | cons sc rest ih =>
    intro _ hx
    by_cases h : x ≤ sc
    · exact ⟨0, by unfold firstLE; rw [if_pos h]⟩
    · cases rest with
      | nil =>
        simp [List.getLastD] at hx
        exact absurd hx h
      | cons b rest2 =>
        have hx2 : x ≤ (b :: rest2).getLastD 0 := by
          simpa [List.getLastD_cons] using hx
        obtain ⟨i, hi⟩ := ih (by simp) hx2
        refine ⟨i + 1, ?_⟩
        unfold firstLE
        rw [if_neg h, hi]
        rfl

/-- Clamped non-sentinel scales: the scale-to-index lookup without
offsets is nonnegative and monotone, provided the container's last scale
is the last per-scale value (so the clamped request is always found). -/
lemma getScaleIndex_mono (li : SharedLoadInfo) (s1 s2 : Int)
    (hne : li.scales ≠ []) (hlast : li.lastScale = li.scales.getLastD 0)
    (hl0 : 0 ≤ li.lastScale) (h0 : 0 ≤ s1) (h12 : s1 ≤ s2) :
    GetScaleIndex li s1 ≤ GetScaleIndex li s2 := by
  have hc1 : 0 ≤ clampScale li s1 := clampScale_nonneg li s1 h0 hl0
  have hc2 : 0 ≤ clampScale li s2 := clampScale_nonneg li s2 (by omega) hl0
  have hcle : clampScale li s1 ≤ clampScale li s2 := clampScale_mono li h12
  have hle1 : clampScale li s1 ≤ li.scales.getLastD 0 := by
    rw [← hlast]
    unfold clampScale
    split <;> omega
  have hle2 : clampScale li s2 ≤ li.scales.getLastD 0 := by
    rw [← hlast]
    unfold clampScale
    split <;> omega
  obtain ⟨i1, hi1⟩ := firstLE_isSome li.scales (clampScale li s1) hne hle1
  obtain ⟨i2, hi2⟩ := firstLE_isSome li.scales (clampScale li s2) hne hle2
  have hspec1 := firstLE_some_spec hi1
  have hspec2 := firstLE_some_spec hi2
  have hi12 : i1 ≤ i2 := by
    by_contra hgt
    have h1 : ¬ clampScale li s1 ≤ li.scales.getD i2 0 := hspec1.2.2 i2 (by omega)
    exact h1 (le_trans hcle hspec2.2.1)
  unfold GetScaleIndex
  dsimp only
  rw [if_neg (by unfold WORST_GEOMETRY; omega), if_neg (by unfold BEST_GEOMETRY; omega),
    if_neg (by unfold WORST_GEOMETRY; omega), if_neg (by unfold BEST_GEOMETRY; omega),
    hi1, hi2]
  show ((i1 : Int)) ≤ ((i2 : Int))
  exact_mod_cast hi12

/-- Monotonicity of the inner-geometry point count in the scale index. -/
lemma innerResult_length_mono (li : SharedLoadInfo) (d : FeatureData) (s1 s2 : Int)
    (hsi : GetScaleIndex li s1 ≤ GetScaleIndex li s2) :
    (innerResult li d s1).length ≤ (innerResult li d s2).length := by
  unfold innerResult
  dsimp only
  simp only [List.length_cons, List.length_append, List.length_map]
  have hmain : (if (List.range (d.innerPoints.length - 2)).filter
        (fun j => decide ((markerAt (assembleSimpMask d) j : Int) ≤ GetScaleIndex li s1)) = []
      then (List.range (d.innerPoints.length - 2)).filter
        (fun j => decide ((markerAt (assembleSimpMask d) j : Int) =
          (List.range (d.innerPoints.length - 2)).foldl
            (fun m j => min m (markerAt (assembleSimpMask d) j : Int))
            ((li.scales.length : Int) - 1)))
      else (List.range (d.innerPoints.length - 2)).filter
        (fun j => decide ((markerAt (assembleSimpMask d) j : Int) ≤
          GetScaleIndex li s1))).length ≤
      (if (List.range (d.innerPoints.length - 2)).filter
        (fun j => decide ((markerAt (assembleSimpMask d) j : Int) ≤ GetScaleIndex li s2)) = []
      then (List.range (d.innerPoints.length - 2)).filter
        (fun j => decide ((markerAt (assembleSimpMask d) j : Int) =
          (List.range (d.innerPoints.length - 2)).foldl
            (fun m j => min m (markerAt (assembleSimpMask d) j : Int))
            ((li.scales.length : Int) - 1)))
      else (List.range (d.innerPoints.length - 2)).filter
        (fun j => decide ((markerAt (assembleSimpMask d) j : Int) ≤
          GetScaleIndex li s2))).length := by
    by_cases hk1 : (List.range (d.innerPoints.length - 2)).filter
        (fun j => decide ((markerAt (assembleSimpMask d) j : Int) ≤ GetScaleIndex li s1)) = []
    · by_cases hk2 : (List.range (d.innerPoints.length - 2)).filter
          (fun j => decide ((markerAt (assembleSimpMask d) j : Int) ≤ GetScaleIndex li s2)) = []
      · rw [if_pos hk1, if_pos hk2]
      · rw [if_pos hk1, if_neg hk2]
        obtain ⟨j0, hj0⟩ := List.exists_mem_of_ne_nil _ hk2
        obtain ⟨hj0r, hj0le⟩ := List.mem_filter.1 hj0
        have hj0le2 : (markerAt (assembleSimpMask d) j0 : Int) ≤ GetScaleIndex li s2 := by
          simpa using hj0le
        have hms : (List.range (d.innerPoints.length - 2)).foldl
            (fun m j => min m (markerAt (assembleSimpMask d) j : Int))
            ((li.scales.length : Int) - 1) ≤ (markerAt (assembleSimpMask d) j0 : Int) :=
          foldlMin_le_mem _ _ _ j0 hj0r
        apply filter_length_mono
        intro a _ hpa
        rw [decide_eq_true_eq] at hpa ⊢
        omega
    · have hk2 : (List.range (d.innerPoints.length - 2)).filter
          (fun j => decide ((markerAt (assembleSimpMask d) j : Int) ≤
            GetScaleIndex li s2)) ≠ [] := by
        obtain ⟨j0, hj0⟩ := List.exists_mem_of_ne_nil _ hk1
        obtain ⟨hj0r, hj0le⟩ := List.mem_filter.1 hj0
        refine List.ne_nil_of_mem (a := j0) ?_
        rw [List.mem_filter]
        refine ⟨hj0r, ?_⟩
        rw [decide_eq_true_eq] at hj0le ⊢
        omega
      rw [if_neg hk1, if_neg hk2]
      apply filter_length_mono
      intro a _ hpa
      rw [decide_eq_true_eq] at hpa ⊢
      omega
  omega

/-- Concrete container for the C8 counterexample: outer streams with two
points at index 1 and one point elsewhere. -/
def liC8 : SharedLoadInfo :=
  ⟨[5, 10, 15], 15, fun ind _ _ => if ind = 1 then [(1, 1), (2, 2)] else [(9, 9)],
   fun _ _ => []⟩

/-- Concrete outer-geometry Line record for the C8 counterexample:
offsets populated at scale indices 0 and 1 only. -/
def dC8 : FeatureData :=
  { header := ⟨HeaderGeomType.line, false, 1⟩
    typeIndices := []
    params := ⟨0, 0, 0, 0, 0⟩
    center := pzero
    ptsCount := 0
    ptsMask := 3
    simpMaskBytes := []
    innerPoints := []
    firstPoint := (7, 7)
    offsetVarints := [100, 200]
    trgCount := 0
    trgMask := 0
    innerTriangles := []
    trgOffsetVarints := [] }

/-- Claim C8, counterexample: scales 7 ≤ 12, but parsing at 7 selects
populated index 1 (three points) while parsing at 12 finds index 2
unpopulated and falls back to `WORST_GEOMETRY`, i.e. index 0 (two
points): the coarser request yields more points than the finer one. -/
theorem claim_c8_counterexample :
    ¬ ((ParseGeometry clW 7 (mkFeatureType liC8 dC8)).points.length ≤
       (ParseGeometry clW 12
         (ResetGeometry (ParseGeometry clW 7 (mkFeatureType liC8 dC8)))).points.length) := by
  decide

/-- Claim C8, amended: the monotone point-count property holds for Line
features with inner geometry (where the simplification-mask filtering is
monotone in the scale index), for non-sentinel scales `s1 ≤ s2` and a
container whose last scale is its final per-scale value.  The original
unrestricted claim fails on outer geometry when the requested scale's
offset is absent and the `WORST_GEOMETRY` fallback selects a coarser
stream (see the counterexample). -/
theorem claim_c8_amended (c : Classif) (li : SharedLoadInfo) (d : FeatureData)
    (s1 s2 : Int)
    (hg : d.header.geomType = HeaderGeomType.line) (hpc : 0 < d.ptsCount)
    (hcnt : 2 ≤ d.innerPoints.length)
    (hne : li.scales ≠ []) (hlast : li.lastScale = li.scales.getLastD 0)
    (hl0 : 0 ≤ li.lastScale) (h0 : 0 ≤ s1) (h12 : s1 ≤ s2) :
    (ParseGeometry c s1 (mkFeatureType li d)).points.length ≤
    (ParseGeometry c s2
      (ResetGeometry (ParseGeometry c s1 (mkFeatureType li d)))).points.length := by
  have h1 := parseGeometry_inner_points c s1 (mkFeatureType li d) rfl rfl rfl rfl hg hpc hcnt
  have hdata : (ResetGeometry (ParseGeometry c s1 (mkFeatureType li d))).data = d := by
    simp
  have hli : (ResetGeometry (ParseGeometry c s1 (mkFeatureType li d))).loadInfo = li := by
    simp
  have h2 := parseGeometry_inner_points c s2
    (ResetGeometry (ParseGeometry c s1 (mkFeatureType li d)))
    (by simp) (by simp) (by simp) (by simp)
    (by rw [hdata]; exact hg) (by rw [hdata]; exact hpc) (by rw [hdata]; exact hcnt)
  rw [h1, h2, hdata, hli]
  rw [show (mkFeatureType li d).loadInfo = li from rfl,
    show (mkFeatureType li d).data = d from rfl]
  exact innerResult_length_mono li d s1 s2
    (getScaleIndex_mono li s1 s2 hne hlast hl0 h0 h12)

/-- Witness for the amended C8 on a concrete inner-geometry line:
3 points at scale 3, 4 points at scale 7 after `ResetGeometry`. -/
theorem claim_c8_amended_witness :
    liC4.scales ≠ [] ∧ liC4.lastScale = liC4.scales.getLastD 0 ∧
    (0 : Int) ≤ liC4.lastScale ∧ (0 : Int) ≤ 3 ∧ (3 : Int) ≤ 7 ∧
    ((ParseGeometry clW 3 (mkFeatureType liC4 dC4)).points.length ≤
      (ParseGeometry clW 7
        (ResetGeometry (ParseGeometry clW 3 (mkFeatureType liC4 dC4)))).points.length) :=
  ⟨by decide, by decide, by decide, by decide, by decide,
    claim_c8_amended clW liC4 dC4 3 7 rfl (by decide) (by decide) (by decide) (by decide)
      (by decide) (by decide) (by decide)⟩

/-- Concrete record for the C10 witness: has-layer flag set, stored
layer value 5. -/
def dC10 : FeatureData :=
  { header := ⟨HeaderGeomType.point, true, 1⟩
    typeIndices := [3]
    params := ⟨0, 0, 5, 0, 0⟩
    center := (2, 2)
    ptsCount := 0
    ptsMask := 0
    simpMaskBytes := []
    innerPoints := []
    firstPoint := pzero
    offsetVarints := []
    trgCount := 0
    trgMask := 0
    innerTriangles := []
    trgOffsetVarints := [] }

/-- Witness for C10 on a fresh feature with the has-layer flag set. -/
theorem claim_c10_witness :
    (mkFeatureType liC4 dC10).parsed.common = false ∧
    (((mkFeatureType liC4 dC10).header.hasLayer = false →
        GetLayer clW (mkFeatureType liC4 dC10) = (0, mkFeatureType liC4 dC10)) ∧
     ((mkFeatureType liC4 dC10).header.hasLayer = true →
        (GetLayer clW (mkFeatureType liC4 dC10)).1 =
          (mkFeatureType liC4 dC10).data.params.layer ∧
        (GetLayer clW (mkFeatureType liC4 dC10)).2 = ParseCommon clW (mkFeatureType liC4 dC10) ∧
        (GetLayer clW (mkFeatureType liC4 dC10)).2.parsed.common = true)) :=
  ⟨rfl, claim_c10 clW (mkFeatureType liC4 dC10) rfl⟩
